import Mathlib

/-!
Verification of the ArbFlux DEX-arbitrage bot against its specification.

The JavaScript source performs its arithmetic with decimal.js `Decimal`
values.  The `Decimal` constructor is exact, but every arithmetic
operation (`plus`, `minus`, `times`, `div`) rounds its result to
`Decimal.precision` significant digits — 20, the library default, which
this repository never raises in production code — using the default
rounding mode `ROUND_HALF_UP` (ties away from zero); `.floor()` and
`.ceil()` themselves are exact.  We model a `Decimal` value as an exact
rational and each operation as the exact rational operation followed by
`roundSig`, the rounding to 20 significant digits.

The faithful embeddings of the math library are `getAmountOutDec` and
`getAmountInDec` below.  On arguments small enough that every
intermediate stays within the 20-digit precision, they agree with the
exact-integer reading of the same code (`getAmountOut`, `getAmountIn`
over ℤ, with `div().floor()` as floor division and `div().ceil()` as
ceiling division): this is `getAmountOutDec_eq_exact` /
`getAmountInDec_eq_exact`, resting on `roundSig_div_mem`.  The exact
reading is what the trade-size search and the strategy layer are
analyzed with; every concrete evaluation cited about them stays within
20 significant digits, so on those runs the two readings coincide.  A
fallible JavaScript function (one that `throw`s) becomes a function into
`Except` or `Option`.
-/

/-- Floor division on ℤ written the way the source computes it
(`Decimal.div` is exact, then `.floor()`); `Int.fdiv` is precisely
`⌊a / b⌋`. -/
def floorDiv (a b : ℤ) : ℤ := Int.fdiv a b

/-- Ceiling division on ℤ (`Decimal.div` exact, then `.ceil()`):
`⌈a / b⌉ = -⌊-a / b⌋`. -/
def ceilDiv (a b : ℤ) : ℤ := -Int.fdiv (-a) b

/-- For a positive divisor, `floorDiv` agrees with the floor of the exact
rational quotient. -/
theorem floorDiv_eq_floor (a b : ℤ) (hb : 0 < b) :
    floorDiv a b = ⌊(a : ℚ) / (b : ℚ)⌋ := by
  unfold floorDiv
  rw [Int.fdiv_eq_ediv _ hb.le]
  obtain ⟨n, rfl⟩ : ∃ n : ℕ, b = (n : ℤ) := ⟨b.toNat, (Int.toNat_of_nonneg hb.le).symm⟩
  have hc : (((n : ℤ)) : ℚ) = ((n : ℕ) : ℚ) := by push_cast; rfl
  rw [hc, Rat.floor_intCast_div_natCast]

/-- For a positive divisor, `ceilDiv` agrees with the ceiling of the
exact rational quotient. -/
theorem ceilDiv_eq_ceil (a b : ℤ) (hb : 0 < b) :
    ceilDiv a b = ⌈(a : ℚ) / (b : ℚ)⌉ := by
  unfold ceilDiv
  have h := floorDiv_eq_floor (-a) b hb
  unfold floorDiv at h
  rw [h]
  have : ((-a : ℤ) : ℚ) / (b : ℚ) = -((a : ℚ) / (b : ℚ)) := by push_cast; ring
  rw [this, Int.floor_neg, neg_neg]

/-- Rounding of an exact rational to 20 significant decimal digits with
ties away from zero: decimal.js applies this to the result of every
arithmetic operation, since the repository leaves `Decimal.precision` at
its default 20 and `Decimal.rounding` at its default `ROUND_HALF_UP`.
For `x > 0` with `e = Int.log 10 x` (so `10^e ≤ x < 10^(e+1)`, i.e. the
leading digit sits at position `e`), the unit in the last of the 20 kept
digits is `10^(e-19)`. -/
def roundSig (x : ℚ) : ℚ :=
  if x = 0 then 0
  else if 0 < x then
    (⌊x * (10:ℚ) ^ ((19:ℤ) - Int.log 10 x) + 1/2⌋ : ℚ) * (10:ℚ) ^ (Int.log 10 x - 19)
  else
    -((⌊(-x) * (10:ℚ) ^ ((19:ℤ) - Int.log 10 (-x)) + 1/2⌋ : ℚ) *
      (10:ℚ) ^ (Int.log 10 (-x) - 19))

/-- Decimal.js `a.mul(b)` / `a.times(b)`: exact product, rounded to
precision. -/
def dMul (a b : ℚ) : ℚ := roundSig (a * b)

/-- Decimal.js `a.add(b)` / `a.plus(b)`: exact sum, rounded to
precision. -/
def dAdd (a b : ℚ) : ℚ := roundSig (a + b)

/-- Decimal.js `a.sub(b)` / `a.minus(b)`: exact difference, rounded to
precision. -/
def dSub (a b : ℚ) : ℚ := roundSig (a - b)

/-- Decimal.js `a.div(b)`: correctly rounded quotient (the exact
rational quotient rounded to precision). -/
def dDiv (a b : ℚ) : ℚ := roundSig (a / b)

/-- Characterization of `Int.log 10` by a bracketing pair of powers,
used to evaluate `roundSig` at concrete points. -/
theorem log10_eq_of (x : ℚ) (e : ℤ) (hx : 0 < x)
    (hlo : (10:ℚ)^e ≤ x) (hhi : x < (10:ℚ)^(e+1)) : Int.log 10 x = e := by
  have h1 : e ≤ Int.log 10 x := by
    rw [← Int.zpow_le_iff_le_log (by norm_num) hx]
    exact_mod_cast hlo
  have h2 : Int.log 10 x < e + 1 := by
    rw [← Int.lt_zpow_iff_log_lt (by norm_num) hx]
    exact_mod_cast hhi
  omega

/-- Evaluation rule for `roundSig` on a positive rational whose
magnitude `e` and rounded mantissa `T` are supplied explicitly. -/
theorem roundSig_pos_eval (x : ℚ) (e T : ℤ) (hx : 0 < x)
    (hlo : (10:ℚ)^e ≤ x) (hhi : x < (10:ℚ)^(e+1))
    (hT : ⌊x * (10:ℚ)^((19:ℤ) - e) + 1/2⌋ = T) :
    roundSig x = (T:ℚ) * (10:ℚ)^(e - 19) := by
  unfold roundSig
  rw [if_neg hx.ne', if_pos hx, log10_eq_of x e hx hlo hhi, hT]

/-- A positive integer of at most 20 digits, scaled by a nonnegative
power of ten, has at most 20 significant digits, so `roundSig` keeps it
unchanged. -/
theorem roundSig_int_mul_pow (n : ℤ) (k : ℕ) (h0 : 0 < n) (h1 : n < 10 ^ 20) :
    roundSig ((n : ℚ) * 10 ^ k) = (n : ℚ) * 10 ^ k := by
  have hx : (0:ℚ) < (n:ℚ) * 10 ^ k := by positivity
  have hxlt : (n:ℚ) * 10 ^ k < (10:ℚ) ^ ((k:ℤ) + 20) := by
    have hn : (n:ℚ) < 10 ^ 20 := by exact_mod_cast h1
    have hsplit : (10:ℚ) ^ ((k:ℤ) + 20) = 10 ^ k * 10 ^ 20 := by
      rw [zpow_add₀ (by norm_num : (10:ℚ) ≠ 0)]
      norm_num [zpow_natCast]
    rw [hsplit]
    nlinarith [pow_pos (by norm_num : (0:ℚ) < 10) k]
  have heK : Int.log 10 ((n:ℚ) * 10 ^ k) ≤ (k:ℤ) + 19 := by
    have h2 := (Int.lt_zpow_iff_log_lt (b := 10) (by norm_num) hx).mp
      (by push_cast; exact hxlt)
    omega
  set e := Int.log 10 ((n:ℚ) * 10 ^ k) with he
  obtain ⟨m, hm⟩ : ∃ m : ℕ, (k:ℤ) + 19 - e = m := ⟨((k:ℤ) + 19 - e).toNat, by omega⟩
  have hpow : (10:ℚ) ^ ((19:ℤ) - e) = 10 ^ m / 10 ^ k := by
    rw [show ((19:ℤ) - e) = (m:ℤ) - (k:ℤ) by omega]
    rw [zpow_sub₀ (by norm_num : (10:ℚ) ≠ 0), zpow_natCast, zpow_natCast]
  have hxz : ((n:ℚ) * 10 ^ k) * (10:ℚ)^((19:ℤ) - e) = ((n * 10 ^ m : ℤ) : ℚ) := by
    rw [hpow]
    push_cast
    field_simp
    ring
  unfold roundSig
  rw [if_neg hx.ne', if_pos hx, ← he, hxz]
  rw [show ((n * 10 ^ m : ℤ) : ℚ) + 1/2 = 1/2 + ((n * 10 ^ m : ℤ) : ℚ) by ring]
  rw [Int.floor_add_int]
  push_cast
  rw [show ⌊(1/2 : ℚ)⌋ = 0 by norm_num]
  rw [show ((0:ℤ):ℚ) + ((n:ℚ) * 10^m) = (n:ℚ) * 10^m by push_cast; ring]
  rw [mul_assoc, show ((10:ℚ)^m) = (10:ℚ)^(m:ℤ) from (zpow_natCast 10 m).symm,
    ← zpow_add₀ (by norm_num : (10:ℚ) ≠ 0), show (m:ℤ) + (e - 19) = (k:ℤ) by omega,
    zpow_natCast]

/-- Nonnegative integers below `10^20` fit in 20 significant digits, so
`roundSig` leaves them unchanged. -/
theorem roundSig_intCast (n : ℤ) (h0 : 0 ≤ n) (h1 : n < 10 ^ 20) :
    roundSig (n : ℚ) = n := by
  rcases h0.eq_or_lt with h | h
  · subst h
    simp [roundSig]
  · simpa using roundSig_int_mul_pow n 0 h h1

/-- Stability of integer quotients under precision-20 rounding: for
`0 < N < 2 * 10^19` and `D > 0`, the rounded quotient `roundSig (N/D)`
stays within `[⌊N/D⌋, ⌊N/D⌋ + 1)`, strictly above the floor when `D`
does not divide `N`.  Key point: the rounding perturbs the exact
quotient by at most half a unit in the 20th digit, which is less than
`1/D`, the least distance from a non-integer `N/D` to an integer. -/
theorem roundSig_div_mem (N D : ℤ) (hN : 0 < N) (hD : 0 < D) (hb : N < 2 * 10 ^ 19) :
    ((⌊(N:ℚ)/D⌋ : ℚ) ≤ roundSig ((N:ℚ)/D) ∧ roundSig ((N:ℚ)/D) < (⌊(N:ℚ)/D⌋ : ℚ) + 1) ∧
    (¬ (D ∣ N) → (⌊(N:ℚ)/D⌋ : ℚ) < roundSig ((N:ℚ)/D)) := by
  have hNq : (0:ℚ) < (N:ℚ) := by exact_mod_cast hN
  have hDq : (0:ℚ) < (D:ℚ) := by exact_mod_cast hD
  have hD1 : (1:ℚ) ≤ (D:ℚ) := by exact_mod_cast hD
  have hbq : (N:ℚ) < 2 * 10 ^ 19 := by exact_mod_cast hb
  set q : ℚ := (N:ℚ)/D with hqdef
  have hq : (0:ℚ) < q := div_pos hNq hDq
  have hqN : q ≤ (N:ℚ) := div_le_self hNq.le hD1
  have hqD : q * D = N := div_mul_cancel₀ _ hDq.ne'
  unfold roundSig
  rw [if_neg hq.ne', if_pos hq]
  set e := Int.log 10 q with he
  have hlo : (10:ℚ)^e ≤ q := by
    have h := Int.zpow_log_le_self (b := 10) (by norm_num) hq
    rw [← he] at h
    exact_mod_cast h
  have he19 : e ≤ 19 := by
    have hq20 : q < ((10:ℕ):ℚ)^((20:ℤ)) := by
      push_cast
      have h20 : ((10:ℚ))^((20:ℤ)) = 10 ^ (20:ℕ) := by
        rw [← zpow_natCast]
        norm_num
      rw [h20]
      norm_num
      linarith
    have h := (Int.lt_zpow_iff_log_lt (b := 10) (by norm_num) hq).mp hq20
    omega
  set u : ℚ := (10:ℚ)^(e - 19) with hu
  have hupos : (0:ℚ) < u := by positivity
  have hcancel : (10:ℚ)^((19:ℤ) - e) * u = 1 := by
    rw [hu, ← zpow_add₀ (by norm_num : (10:ℚ) ≠ 0)]
    norm_num
  have hkey : u * 10^19 ≤ q := by
    have h1 : u * 10^19 = (10:ℚ)^e := by
      calc u * 10^19 = (10:ℚ)^(e-19) * (10:ℚ)^((19:ℕ):ℤ) := by
            rw [hu, zpow_natCast]
        _ = (10:ℚ)^e := by
            rw [← zpow_add₀ (by norm_num : (10:ℚ) ≠ 0)]
            norm_num
    rw [h1]
    exact hlo
  have hu_half : u / 2 < 1 / (D:ℚ) := by
    have huD : u * D * 10^19 ≤ N := by nlinarith
    have huD2 : u * D < 2 := by nlinarith
    rw [div_lt_div_iff₀ (by norm_num) hDq]
    linarith
  set T := ⌊q * (10:ℚ)^((19:ℤ) - e) + 1/2⌋ with hT
  set f := ⌊q⌋ with hf
  obtain ⟨m, hm⟩ : ∃ m : ℕ, (19:ℤ) - e = (m:ℤ) := ⟨(19 - e).toNat, by omega⟩
  have hpw : (10:ℚ)^((19:ℤ) - e) = (10:ℚ)^(m:ℕ) := by rw [hm, zpow_natCast]
  have hmu : (10:ℚ)^(m:ℕ) * u = 1 := by rw [← hpw]; exact hcancel
  have hfle : (f:ℚ) ≤ q := Int.floor_le q
  have hflt : q < (f:ℚ) + 1 := Int.lt_floor_add_one q
  have hTlow : f * 10^m ≤ T := by
    rw [hT, Int.le_floor]
    push_cast
    rw [hpw]
    nlinarith [pow_pos (by norm_num : (0:ℚ) < 10) m]
  have hA : (f:ℚ) ≤ (T:ℚ) * u := by
    have h1 : ((f * 10^m : ℤ):ℚ) ≤ (T:ℚ) := by exact_mod_cast hTlow
    push_cast at h1
    have h2 : ((f:ℚ) * 10^m) * u ≤ (T:ℚ) * u :=
      mul_le_mul_of_nonneg_right h1 hupos.le
    calc (f:ℚ) = (f:ℚ) * ((10:ℚ)^(m:ℕ) * u) := by rw [hmu]; ring
      _ = ((f:ℚ) * 10^m) * u := by ring
      _ ≤ (T:ℚ) * u := h2
  have hTup : (T:ℚ) ≤ q * (10:ℚ)^((19:ℤ) - e) + 1/2 := Int.floor_le _
  have hB : (T:ℚ) * u ≤ q + u / 2 := by
    have h2 := mul_le_mul_of_nonneg_right hTup hupos.le
    calc (T:ℚ) * u ≤ (q * (10:ℚ)^((19:ℤ)-e) + 1/2) * u := h2
      _ = q * ((10:ℚ)^((19:ℤ)-e) * u) + u/2 := by ring
      _ = q + u/2 := by rw [hcancel]; ring
  have hgap : 1/(D:ℚ) ≤ ((f:ℚ) + 1) - q := by
    have h2 : N < (f + 1) * D := by
      have h3 : (N:ℚ) < ((f:ℚ) + 1) * D := by
        have h1 := (div_lt_iff₀ hDq).mp hflt
        linarith [h1]
      exact_mod_cast h3
    have h3 : N + 1 ≤ (f + 1) * D := by omega
    have h5 : (1:ℚ) ≤ (((f + 1) * D - N : ℤ):ℚ) := by
      exact_mod_cast (by omega : (1:ℤ) ≤ (f + 1) * D - N)
    have h4 : ((f:ℚ) + 1) - q = (((f + 1) * D - N : ℤ):ℚ)/D := by
      push_cast
      rw [hqdef]
      field_simp
    rw [h4]
    exact div_le_div_of_nonneg_right h5 hDq.le |>.trans_eq rfl
  refine ⟨⟨hA, by linarith⟩, fun hndvd => ?_⟩
  have hfD : f * D + 1 ≤ N := by
    have h1 : f * D ≤ N := by
      have h2 : (f:ℚ) * D ≤ (N:ℚ) := by nlinarith
      exact_mod_cast h2
    rcases h1.eq_or_lt with h | h
    · exact absurd ⟨f, by rw [← h]; ring⟩ hndvd
    · omega
  have hgap2 : 1/(D:ℚ) ≤ q - (f:ℚ) := by
    have h5 : (1:ℚ) ≤ ((N - f * D : ℤ):ℚ) := by
      exact_mod_cast (by omega : (1:ℤ) ≤ N - f * D)
    have h4 : q - (f:ℚ) = ((N - f * D : ℤ):ℚ)/D := by
      push_cast
      rw [hqdef]
      field_simp
      ring
    rw [h4]
    exact div_le_div_of_nonneg_right h5 hDq.le |>.trans_eq rfl
  have hTlow2 : q * (10:ℚ)^((19:ℤ) - e) - 1/2 < (T:ℚ) := by
    have h6 := Int.sub_one_lt_floor (q * (10:ℚ)^((19:ℤ) - e) + 1/2)
    rw [← hT] at h6
    linarith
  have hrlow : q - u/2 < (T:ℚ) * u := by
    have h2 := mul_lt_mul_of_pos_right hTlow2 hupos
    calc q - u/2 = q * ((10:ℚ)^((19:ℤ)-e) * u) - u/2 := by rw [hcancel]; ring
      _ = (q * (10:ℚ)^((19:ℤ)-e) - 1/2) * u := by ring
      _ < (T:ℚ) * u := h2
  linarith

/-- Taking the floor after the rounded division `dDiv` agrees with the
exact floor division as long as the numerator is below `2 * 10^19`. -/
theorem floor_roundSig_div (N D : ℤ) (hN : 0 < N) (hD : 0 < D) (hb : N < 2 * 10 ^ 19) :
    ⌊roundSig ((N:ℚ)/D)⌋ = ⌊(N:ℚ)/D⌋ := by
  obtain ⟨⟨h1, h2⟩, _⟩ := roundSig_div_mem N D hN hD hb
  rw [Int.floor_eq_iff]
  refine ⟨h1, ?_⟩
  exact_mod_cast h2

/-- Taking the ceiling after the rounded division `dDiv` agrees with the
exact ceiling division as long as the numerator is below `2 * 10^19`. -/
theorem ceil_roundSig_div (N D : ℤ) (hN : 0 < N) (hD : 0 < D) (hb : N < 2 * 10 ^ 19) :
    ⌈roundSig ((N:ℚ)/D)⌉ = ⌈(N:ℚ)/D⌉ := by
  by_cases hdvd : D ∣ N
  · obtain ⟨c, rfl⟩ := hdvd
    have hc : 0 < c := by nlinarith
    have hDq : ((D:ℚ)) ≠ 0 := by
      have : (0:ℚ) < (D:ℚ) := by exact_mod_cast hD
      exact this.ne'
    have hq : ((D * c : ℤ):ℚ)/D = ((c:ℤ):ℚ) := by
      push_cast
      rw [mul_comm, mul_div_assoc, div_self hDq, mul_one]
    have hcb : c < 10 ^ 20 := by nlinarith
    rw [hq, roundSig_intCast c hc.le hcb]
  · obtain ⟨⟨h1, h2⟩, h3⟩ := roundSig_div_mem N D hN hD hb
    have h4 := h3 hdvd
    have hDq : (0:ℚ) < (D:ℚ) := by exact_mod_cast hD
    have hne : (⌊(N:ℚ)/D⌋:ℚ) ≠ (N:ℚ)/D := by
      intro h
      apply hdvd
      refine ⟨⌊(N:ℚ)/D⌋, ?_⟩
      rw [eq_div_iff hDq.ne'] at h
      exact_mod_cast (by linear_combination -h : (N:ℚ) = (D:ℚ) * (⌊(N:ℚ)/D⌋:ℚ))
    have hfl : (⌊(N:ℚ)/D⌋:ℚ) < (N:ℚ)/D := lt_of_le_of_ne (Int.floor_le _) hne
    have hceil : ⌈(N:ℚ)/D⌉ = ⌊(N:ℚ)/D⌋ + 1 := by
      rw [Int.ceil_eq_iff]
      refine ⟨by push_cast; simpa using hfl, ?_⟩
      exact_mod_cast (Int.lt_floor_add_one ((N:ℚ)/D)).le
    rw [hceil, Int.ceil_eq_iff]
    refine ⟨by push_cast; simpa using h4, ?_⟩
    exact_mod_cast h2.le

/-- Error kinds thrown by the math library (`UniswapV2Math`):
`invalidInput` for the positivity validations, `insufficientLiquidity`
for `amountOut >= reserveOut` in `getAmountIn`. -/
inductive MathError where
  | invalidInput
  | insufficientLiquidity
deriving DecidableEq, Repr

namespace UniswapV2Math

/-- `UNISWAP_V2_CONSTANTS.FEE_NUMERATOR` (src/unnamed/part_001). -/
def FEE_NUMERATOR : ℤ := 997

/-- `UNISWAP_V2_CONSTANTS.FEE_DENOMINATOR` (src/unnamed/part_001). -/
def FEE_DENOMINATOR : ℤ := 1000

/-- Exact-arithmetic reading of `UniswapV2Math.getAmountOut`
(src/unnamed/part_002, lines 24-71): validates that all three arguments
are positive (each violation throws an invalid-input error), then
computes
`floor(amountInWithFee * reserveOut / (reserveIn * 1000 + amountInWithFee))`
with `amountInWithFee = amountIn * 997`, as if every decimal.js
operation were exact.  The faithful embedding with precision-20 rounding
is `getAmountOutDec` below; they agree whenever the intermediates fit in
20 significant digits (`getAmountOutDec_eq_exact`), which holds on every
concrete evaluation used in the trade-size-search and strategy-layer
analyses. -/
def getAmountOut (amountIn reserveIn reserveOut : ℤ) : Except MathError ℤ :=
  if amountIn ≤ 0 then .error .invalidInput
  else if reserveIn ≤ 0 then .error .invalidInput
  else if reserveOut ≤ 0 then .error .invalidInput
  else
    let amountInWithFee := amountIn * FEE_NUMERATOR
    let numerator := amountInWithFee * reserveOut
    let denominator := reserveIn * FEE_DENOMINATOR + amountInWithFee
    .ok (floorDiv numerator denominator)

/-- Exact-arithmetic reading of `UniswapV2Math.getAmountIn`
(src/unnamed/part_002, lines 82-119): validates positivity and
`amountOut < reserveOut`, then computes
`ceil(reserveIn * amountOut * 1000 / ((reserveOut - amountOut) * 997)) + 1`
(the source calls `.ceil().add(1)`), as if every decimal.js operation
were exact.  The faithful embedding with precision-20 rounding is
`getAmountInDec` below; they agree whenever the intermediates fit in 20
significant digits (`getAmountInDec_eq_exact`). -/
def getAmountIn (amountOut reserveIn reserveOut : ℤ) : Except MathError ℤ :=
  if amountOut ≤ 0 ∨ reserveIn ≤ 0 ∨ reserveOut ≤ 0 then .error .invalidInput
  else if reserveOut ≤ amountOut then .error .insufficientLiquidity
  else
    let numerator := reserveIn * amountOut * FEE_DENOMINATOR
    let denominator := (reserveOut - amountOut) * FEE_NUMERATOR
    .ok (ceilDiv numerator denominator + 1)

/-- Faithful embedding of `UniswapV2Math.getAmountOut`
(src/unnamed/part_002, lines 24-71) under decimal.js semantics: the
`Decimal` constructor is exact (arguments are ℚ), the three `lte(0)`
validations throw invalid-input, and then every `mul`, `add` and `div`
rounds its result to 20 significant digits (`dMul`, `dAdd`, `dDiv`),
with the final `.floor()` exact.  The returned integer is
`floor(dDiv(dMul(dMul(amountIn,997),reserveOut), dAdd(dMul(reserveIn,1000),dMul(amountIn,997))))`. -/
def getAmountOutDec (amountIn reserveIn reserveOut : ℚ) : Except MathError ℤ :=
  if amountIn ≤ 0 then .error .invalidInput
  else if reserveIn ≤ 0 then .error .invalidInput
  else if reserveOut ≤ 0 then .error .invalidInput
  else
    let amountInWithFee := dMul amountIn (FEE_NUMERATOR : ℚ)
    let numerator := dMul amountInWithFee reserveOut
    let denominator := dAdd (dMul reserveIn (FEE_DENOMINATOR : ℚ)) amountInWithFee
    .ok ⌊dDiv numerator denominator⌋

/-- Faithful embedding of `UniswapV2Math.getAmountIn`
(src/unnamed/part_002, lines 82-119) under decimal.js semantics: exact
constructor, validations as in the source, then
`numerator.div(denominator).ceil().add(1)` with every `mul`, `sub`,
`div` and the final `add(1)` rounded to 20 significant digits and the
`.ceil()` exact.  The result is an integer Decimal; the embedding
returns it via an exact floor. -/
def getAmountInDec (amountOut reserveIn reserveOut : ℚ) : Except MathError ℤ :=
  if amountOut ≤ 0 ∨ reserveIn ≤ 0 ∨ reserveOut ≤ 0 then .error .invalidInput
  else if reserveOut ≤ amountOut then .error .insufficientLiquidity
  else
    let numerator := dMul (dMul reserveIn amountOut) (FEE_DENOMINATOR : ℚ)
    let denominator := dMul (dSub reserveOut amountOut) (FEE_NUMERATOR : ℚ)
    .ok ⌊dAdd (⌈dDiv numerator denominator⌉ : ℚ) 1⌋

/-- On integer inputs whose intermediates fit within the 20-digit
precision (numerator below `2 * 10^19`, denominator below `10^20`), the
faithful decimal.js embedding of `getAmountOut` agrees with the
exact-arithmetic reading. -/
theorem getAmountOutDec_eq_exact (aIn rIn rOut : ℤ)
    (h1 : 0 < aIn) (h2 : 0 < rIn) (h3 : 0 < rOut)
    (hn : aIn * 997 * rOut < 2 * 10 ^ 19)
    (hd : rIn * 1000 + aIn * 997 < 10 ^ 20) :
    getAmountOutDec (aIn : ℚ) (rIn : ℚ) (rOut : ℚ) = getAmountOut aIn rIn rOut := by
  have hfee : (0:ℤ) < aIn * 997 := by nlinarith
  have hfee20 : aIn * 997 < 10 ^ 20 := by nlinarith
  have hnum : (0:ℤ) < aIn * 997 * rOut := by nlinarith
  have hrd : (0:ℤ) < rIn * 1000 := by nlinarith
  have hrd20 : rIn * 1000 < 10 ^ 20 := by nlinarith
  have hden : (0:ℤ) < rIn * 1000 + aIn * 997 := by nlinarith
  have m1 : dMul (aIn:ℚ) ((997:ℤ):ℚ) = ((aIn * 997 : ℤ):ℚ) := by
    unfold dMul
    rw [show (aIn:ℚ) * ((997:ℤ):ℚ) = ((aIn * 997 : ℤ):ℚ) by push_cast; ring]
    rw [roundSig_intCast _ hfee.le hfee20]
  have m2 : dMul ((aIn * 997 : ℤ):ℚ) (rOut:ℚ) = ((aIn * 997 * rOut : ℤ):ℚ) := by
    unfold dMul
    rw [show ((aIn * 997 : ℤ):ℚ) * (rOut:ℚ) = ((aIn * 997 * rOut : ℤ):ℚ) by push_cast; ring]
    rw [roundSig_intCast _ hnum.le (by nlinarith)]
  have m3 : dMul (rIn:ℚ) ((1000:ℤ):ℚ) = ((rIn * 1000 : ℤ):ℚ) := by
    unfold dMul
    rw [show (rIn:ℚ) * ((1000:ℤ):ℚ) = ((rIn * 1000 : ℤ):ℚ) by push_cast; ring]
    rw [roundSig_intCast _ hrd.le hrd20]
  have m4 : dAdd ((rIn * 1000 : ℤ):ℚ) ((aIn * 997 : ℤ):ℚ) =
      ((rIn * 1000 + aIn * 997 : ℤ):ℚ) := by
    unfold dAdd
    rw [show ((rIn * 1000 : ℤ):ℚ) + ((aIn * 997 : ℤ):ℚ) =
      ((rIn * 1000 + aIn * 997 : ℤ):ℚ) by push_cast; ring]
    rw [roundSig_intCast _ hden.le hd]
  have m5 : ⌊dDiv ((aIn * 997 * rOut : ℤ):ℚ) ((rIn * 1000 + aIn * 997 : ℤ):ℚ)⌋ =
      floorDiv (aIn * 997 * rOut) (rIn * 1000 + aIn * 997) := by
    unfold dDiv
    rw [floor_roundSig_div _ _ hnum hden hn, floorDiv_eq_floor _ _ hden]
  unfold getAmountOutDec getAmountOut FEE_NUMERATOR FEE_DENOMINATOR
  rw [if_neg (not_le.mpr (by exact_mod_cast h1 : (0:ℚ) < (aIn:ℚ))),
    if_neg (not_le.mpr (by exact_mod_cast h2 : (0:ℚ) < (rIn:ℚ))),
    if_neg (not_le.mpr (by exact_mod_cast h3 : (0:ℚ) < (rOut:ℚ))),
    if_neg (by omega), if_neg (by omega), if_neg (by omega)]
  show Except.ok ⌊dDiv (dMul (dMul (aIn:ℚ) ((997:ℤ):ℚ)) (rOut:ℚ))
      (dAdd (dMul (rIn:ℚ) ((1000:ℤ):ℚ)) (dMul (aIn:ℚ) ((997:ℤ):ℚ)))⌋ =
    Except.ok (floorDiv (aIn * 997 * rOut) (rIn * 1000 + aIn * 997))
  rw [m1, m2, m3, m4, m5]

/-- On integer inputs whose intermediates fit within the 20-digit
precision, the faithful decimal.js embedding of `getAmountIn` agrees
with the exact-arithmetic reading. -/
theorem getAmountInDec_eq_exact (aOut rIn rOut : ℤ)
    (h1 : 0 < aOut) (h2 : 0 < rIn) (h3 : aOut < rOut)
    (hn : rIn * aOut * 1000 < 2 * 10 ^ 19)
    (hd : (rOut - aOut) * 997 < 10 ^ 20) :
    getAmountInDec (aOut : ℚ) (rIn : ℚ) (rOut : ℚ) = getAmountIn aOut rIn rOut := by
  have hro : (0:ℤ) < rOut := lt_trans h1 h3
  have hra : (0:ℤ) < rIn * aOut := by nlinarith
  have hra20 : rIn * aOut < 10 ^ 20 := by nlinarith
  have hN : (0:ℤ) < rIn * aOut * 1000 := by nlinarith
  have hsub : (0:ℤ) < rOut - aOut := by omega
  have hsub20 : rOut - aOut < 10 ^ 20 := by nlinarith
  have hD : (0:ℤ) < (rOut - aOut) * 997 := by nlinarith
  have s1 : dMul (rIn:ℚ) (aOut:ℚ) = ((rIn * aOut : ℤ):ℚ) := by
    unfold dMul
    rw [show (rIn:ℚ) * (aOut:ℚ) = ((rIn * aOut : ℤ):ℚ) by push_cast; ring]
    rw [roundSig_intCast _ hra.le hra20]
  have s2 : dMul ((rIn * aOut : ℤ):ℚ) ((1000:ℤ):ℚ) = ((rIn * aOut * 1000 : ℤ):ℚ) := by
    unfold dMul
    rw [show ((rIn * aOut : ℤ):ℚ) * ((1000:ℤ):ℚ) =
      ((rIn * aOut * 1000 : ℤ):ℚ) by push_cast; ring]
    rw [roundSig_intCast _ hN.le (by nlinarith)]
  have s3 : dSub (rOut:ℚ) (aOut:ℚ) = ((rOut - aOut : ℤ):ℚ) := by
    unfold dSub
    rw [show (rOut:ℚ) - (aOut:ℚ) = ((rOut - aOut : ℤ):ℚ) by push_cast; ring]
    rw [roundSig_intCast _ hsub.le hsub20]
  have s4 : dMul ((rOut - aOut : ℤ):ℚ) ((997:ℤ):ℚ) = (((rOut - aOut) * 997 : ℤ):ℚ) := by
    unfold dMul
    rw [show ((rOut - aOut : ℤ):ℚ) * ((997:ℤ):ℚ) =
      (((rOut - aOut) * 997 : ℤ):ℚ) by push_cast; ring]
    rw [roundSig_intCast _ hD.le hd]
  have s5 : ⌈dDiv ((rIn * aOut * 1000 : ℤ):ℚ) (((rOut - aOut) * 997 : ℤ):ℚ)⌉ =
      ceilDiv (rIn * aOut * 1000) ((rOut - aOut) * 997) := by
    unfold dDiv
    rw [ceil_roundSig_div _ _ hN hD hn, ← ceilDiv_eq_ceil _ _ hD]
  have hA : ¬((aOut:ℚ) ≤ 0 ∨ (rIn:ℚ) ≤ 0 ∨ (rOut:ℚ) ≤ 0) := by
    push_neg
    exact ⟨by exact_mod_cast h1, by exact_mod_cast h2, by exact_mod_cast hro⟩
  have hB : ¬((rOut:ℚ) ≤ (aOut:ℚ)) := not_le.mpr (by exact_mod_cast h3)
  unfold getAmountInDec getAmountIn FEE_NUMERATOR FEE_DENOMINATOR
  rw [if_neg hA, if_neg hB, if_neg (by omega), if_neg (by omega)]
  show Except.ok ⌊dAdd ((⌈dDiv (dMul (dMul (rIn:ℚ) (aOut:ℚ)) ((1000:ℤ):ℚ))
        (dMul (dSub (rOut:ℚ) (aOut:ℚ)) ((997:ℤ):ℚ))⌉ : ℤ) : ℚ) 1⌋ =
    Except.ok (ceilDiv (rIn * aOut * 1000) ((rOut - aOut) * 997) + 1)
  rw [s1, s2, s3, s4, s5]
  set C := ceilDiv (rIn * aOut * 1000) ((rOut - aOut) * 997) with hC
  have hC1 : 0 < C := by
    rw [hC, ceilDiv_eq_ceil _ _ hD]
    refine Int.ceil_pos.mpr (div_pos ?_ ?_)
    · exact_mod_cast hN
    · exact_mod_cast hD
  have hCN : C ≤ rIn * aOut * 1000 := by
    rw [hC, ceilDiv_eq_ceil _ _ hD, Int.ceil_le]
    refine div_le_self ?_ ?_
    · exact_mod_cast hN.le
    · exact_mod_cast hD
  have s6 : dAdd ((C : ℤ):ℚ) 1 = ((C + 1 : ℤ):ℚ) := by
    unfold dAdd
    rw [show ((C : ℤ):ℚ) + 1 = ((C + 1 : ℤ):ℚ) by push_cast; ring]
    rw [roundSig_intCast _ (by omega) (by omega)]
  rw [s6, Int.floor_intCast]

end UniswapV2Math

/-- Specification of the exact-arithmetic reading of `getAmountOut`:
for positive integer inputs it returns
`floor((amountIn*997*reserveOut) / (reserveIn*1000 + amountIn*997))`,
the result lies in `[0, reserveOut)`, and any non-positive argument
yields an invalid-input error.  Transferred to the faithful decimal.js
embedding on bounded inputs in `C1_getAmountOutDec_amended`. -/
theorem getAmountOut_exact_spec (aIn rIn rOut : ℤ) :
    (0 < aIn → 0 < rIn → 0 < rOut →
      UniswapV2Math.getAmountOut aIn rIn rOut =
        .ok ⌊((aIn * 997 * rOut : ℤ) : ℚ) / ((rIn * 1000 + aIn * 997 : ℤ) : ℚ)⌋ ∧
      0 ≤ ⌊((aIn * 997 * rOut : ℤ) : ℚ) / ((rIn * 1000 + aIn * 997 : ℤ) : ℚ)⌋ ∧
      ⌊((aIn * 997 * rOut : ℤ) : ℚ) / ((rIn * 1000 + aIn * 997 : ℤ) : ℚ)⌋ < rOut) ∧
    (aIn ≤ 0 ∨ rIn ≤ 0 ∨ rOut ≤ 0 →
      UniswapV2Math.getAmountOut aIn rIn rOut = .error .invalidInput) := by
  constructor
  · intro ha hr ho
    have hden : (0 : ℤ) < rIn * 1000 + aIn * 997 := by nlinarith
    have hden' : (0 : ℚ) < ((rIn * 1000 + aIn * 997 : ℤ) : ℚ) := by exact_mod_cast hden
    refine ⟨?_, ?_, ?_⟩
    · unfold UniswapV2Math.getAmountOut UniswapV2Math.FEE_NUMERATOR UniswapV2Math.FEE_DENOMINATOR
      rw [if_neg (by omega), if_neg (by omega), if_neg (by omega)]
      show Except.ok (floorDiv (aIn * 997 * rOut) (rIn * 1000 + aIn * 997)) = _
      rw [floorDiv_eq_floor _ _ (by nlinarith)]
    · rw [Int.le_floor]
      have hnum : (0 : ℤ) ≤ aIn * 997 * rOut := by nlinarith
      have hnum' : (0 : ℚ) ≤ ((aIn * 997 * rOut : ℤ) : ℚ) := by exact_mod_cast hnum
      push_cast at hnum' hden' ⊢
      positivity
    · rw [Int.floor_lt]
      rw [div_lt_iff₀ hden']
      push_cast
      have ha' : (0 : ℚ) < (aIn : ℚ) := by exact_mod_cast ha
      have hr' : (0 : ℚ) < (rIn : ℚ) := by exact_mod_cast hr
      have ho' : (0 : ℚ) < (rOut : ℚ) := by exact_mod_cast ho
      nlinarith
  · intro h
    unfold UniswapV2Math.getAmountOut
    rcases h with h | h | h
    · rw [if_pos h]
    · by_cases ha : aIn ≤ 0
      · rw [if_pos ha]
      · rw [if_neg ha, if_pos h]
    · by_cases ha : aIn ≤ 0
      · rw [if_pos ha]
      · by_cases hb : rIn ≤ 0
        · rw [if_neg ha, if_pos hb]
        · rw [if_neg ha, if_neg hb, if_pos h]

/-- Counterexample to claim C1 under faithful decimal.js semantics: at
`amountIn = 10^40`, `reserveIn = 1`, `reserveOut = 10^19` the
denominator `1000 + 997 * 10^40` rounds to `997 * 10^40` (20 significant
digits), the quotient becomes exactly `10^19`, and `getAmountOut`
returns `10^19 = reserveOut` — violating both the claimed exact-floor
formula, whose value is `10^19 - 1`, and the claimed strict bound
`result < reserveOut`. -/
theorem C1_getAmountOutDec_counterexample :
    UniswapV2Math.getAmountOutDec ((10:ℚ) ^ 40) 1 ((10:ℚ) ^ 19) = .ok (10 ^ 19) ∧
    ⌊((10 ^ 40 * 997 * 10 ^ 19 : ℤ) : ℚ) / ((1 * 1000 + 10 ^ 40 * 997 : ℤ) : ℚ)⌋ =
      10 ^ 19 - 1 ∧
    (10 ^ 19 : ℤ) ≠ 10 ^ 19 - 1 ∧ ¬ ((10 ^ 19 : ℤ) < 10 ^ 19) := by
  refine ⟨?_, ?_, by decide, by decide⟩
  · have t1 : dMul ((10:ℚ) ^ 40) ((997:ℤ):ℚ) = 997 * (10:ℚ) ^ 40 := by
      unfold dMul
      rw [show ((10:ℚ) ^ 40) * ((997:ℤ):ℚ) = ((997:ℤ):ℚ) * 10 ^ 40 by push_cast; ring]
      rw [roundSig_int_mul_pow 997 40 (by norm_num) (by norm_num)]
      push_cast
      ring
    have t2 : dMul (997 * (10:ℚ) ^ 40) ((10:ℚ) ^ 19) = 997 * (10:ℚ) ^ 59 := by
      unfold dMul
      rw [show (997 * (10:ℚ) ^ 40) * ((10:ℚ) ^ 19) = ((997:ℤ):ℚ) * 10 ^ 59 by
        push_cast; ring]
      rw [roundSig_int_mul_pow 997 59 (by norm_num) (by norm_num)]
      push_cast
      ring
    have t3 : dMul (1:ℚ) ((1000:ℤ):ℚ) = 1000 := by
      unfold dMul
      rw [show (1:ℚ) * ((1000:ℤ):ℚ) = ((1000:ℤ):ℚ) by push_cast; ring]
      rw [roundSig_intCast 1000 (by norm_num) (by norm_num)]
      norm_num
    have t4 : dAdd (1000:ℚ) (997 * (10:ℚ) ^ 40) = 997 * (10:ℚ) ^ 40 := by
      unfold dAdd
      have h := roundSig_pos_eval ((1000:ℚ) + 997 * (10:ℚ) ^ 40) 42 (997 * 10 ^ 17)
        (by positivity) (by norm_num) (by norm_num) (by norm_num)
      rw [h]
      push_cast
      norm_num
    have t5 : ⌊dDiv (997 * (10:ℚ) ^ 59) (997 * (10:ℚ) ^ 40)⌋ = 10 ^ 19 := by
      unfold dDiv
      rw [show (997 * (10:ℚ) ^ 59) / (997 * (10:ℚ) ^ 40) = ((1:ℤ):ℚ) * 10 ^ 19 by
        rw [div_eq_iff (by positivity)]; push_cast; ring]
      rw [roundSig_int_mul_pow 1 19 (by norm_num) (by norm_num)]
      rw [show ((1:ℤ):ℚ) * 10 ^ 19 = ((10 ^ 19 : ℤ):ℚ) by push_cast; ring]
      exact Int.floor_intCast _
    unfold UniswapV2Math.getAmountOutDec UniswapV2Math.FEE_NUMERATOR
      UniswapV2Math.FEE_DENOMINATOR
    rw [if_neg (by norm_num), if_neg (by norm_num), if_neg (by norm_num)]
    show Except.ok ⌊dDiv (dMul (dMul ((10:ℚ) ^ 40) ((997:ℤ):ℚ)) ((10:ℚ) ^ 19))
        (dAdd (dMul (1:ℚ) ((1000:ℤ):ℚ)) (dMul ((10:ℚ) ^ 40) ((997:ℤ):ℚ)))⌋ =
      Except.ok (10 ^ 19)
    rw [t1, t2, t3, t4, t5]
  · norm_num

/-- Claim C1 as amended: on positive inputs bounded by `10^8` (so that
numerator and denominator stay within the 20-significant-digit
precision), the faithful decimal.js embedding returns the exact
`floor((amountIn*997*reserveOut) / (reserveIn*1000 + amountIn*997))`,
which lies in `[0, reserveOut)`; any non-positive argument yields an
invalid-input error unconditionally.  Beyond such bounds the rounding
can break the formula and the strict upper bound
(`C1_getAmountOutDec_counterexample`). -/
theorem C1_getAmountOutDec_amended (aIn rIn rOut : ℤ) :
    (0 < aIn → 0 < rIn → 0 < rOut → aIn ≤ 10 ^ 8 → rIn ≤ 10 ^ 8 → rOut ≤ 10 ^ 8 →
      UniswapV2Math.getAmountOutDec (aIn : ℚ) (rIn : ℚ) (rOut : ℚ) =
        .ok ⌊((aIn * 997 * rOut : ℤ) : ℚ) / ((rIn * 1000 + aIn * 997 : ℤ) : ℚ)⌋ ∧
      0 ≤ ⌊((aIn * 997 * rOut : ℤ) : ℚ) / ((rIn * 1000 + aIn * 997 : ℤ) : ℚ)⌋ ∧
      ⌊((aIn * 997 * rOut : ℤ) : ℚ) / ((rIn * 1000 + aIn * 997 : ℤ) : ℚ)⌋ < rOut) ∧
    (aIn ≤ 0 ∨ rIn ≤ 0 ∨ rOut ≤ 0 →
      UniswapV2Math.getAmountOutDec (aIn : ℚ) (rIn : ℚ) (rOut : ℚ) =
        .error .invalidInput) := by
  constructor
  · intro h1 h2 h3 b1 b2 b3
    have hro : aIn * rOut ≤ 10 ^ 8 * 10 ^ 8 :=
      mul_le_mul b1 b3 h3.le (by norm_num)
    have hn : aIn * 997 * rOut < 2 * 10 ^ 19 := by nlinarith
    have hd : rIn * 1000 + aIn * 997 < 10 ^ 20 := by nlinarith
    rw [UniswapV2Math.getAmountOutDec_eq_exact aIn rIn rOut h1 h2 h3 hn hd]
    exact (getAmountOut_exact_spec aIn rIn rOut).1 h1 h2 h3
  · intro h
    unfold UniswapV2Math.getAmountOutDec
    rcases h with h | h | h
    · rw [if_pos (by exact_mod_cast h : (aIn:ℚ) ≤ 0)]
    · by_cases ha : (aIn:ℚ) ≤ 0
      · rw [if_pos ha]
      · rw [if_neg ha, if_pos (by exact_mod_cast h : (rIn:ℚ) ≤ 0)]
    · by_cases ha : (aIn:ℚ) ≤ 0
      · rw [if_pos ha]
      · by_cases hb : (rIn:ℚ) ≤ 0
        · rw [if_neg ha, if_pos hb]
        · rw [if_neg ha, if_neg hb, if_pos (by exact_mod_cast h : (rOut:ℚ) ≤ 0)]

/-- Witness for the amended C1 at `aIn = 5`, `rIn = 100`, `rOut = 200`. -/
theorem C1_getAmountOutDec_amended_witness :
    UniswapV2Math.getAmountOutDec ((5:ℤ) : ℚ) ((100:ℤ) : ℚ) ((200:ℤ) : ℚ) =
        .ok ⌊(((5 * 997 * 200 : ℤ)) : ℚ) / (((100 * 1000 + 5 * 997 : ℤ)) : ℚ)⌋ ∧
      0 ≤ ⌊(((5 * 997 * 200 : ℤ)) : ℚ) / (((100 * 1000 + 5 * 997 : ℤ)) : ℚ)⌋ ∧
      ⌊(((5 * 997 * 200 : ℤ)) : ℚ) / (((100 * 1000 + 5 * 997 : ℤ)) : ℚ)⌋ < 200 :=
  (C1_getAmountOutDec_amended 5 100 200).1 (by decide) (by decide) (by decide)
    (by decide) (by decide) (by decide)

/-- Specification of the exact-arithmetic reading of `getAmountIn`: for
`0 < amountOut < reserveOut` and `reserveIn > 0` it returns
`ceil((reserveIn*amountOut*1000) / ((reserveOut - amountOut)*997)) + 1`
(the source uses ceiling, not floor, before adding 1); when
`amountOut >= reserveOut` or any argument is non-positive it fails, with
an invalid-input error for non-positive arguments and an
insufficient-liquidity error for `amountOut >= reserveOut` on otherwise
positive inputs.  Transferred to the faithful decimal.js embedding on
bounded inputs in `C2_getAmountInDec_amended`. -/
theorem getAmountIn_exact_spec (aOut rIn rOut : ℤ) :
    (0 < aOut → aOut < rOut → 0 < rIn →
      UniswapV2Math.getAmountIn aOut rIn rOut =
        .ok (⌈((rIn * aOut * 1000 : ℤ) : ℚ) / (((rOut - aOut) * 997 : ℤ) : ℚ)⌉ + 1)) ∧
    (rOut ≤ aOut ∨ aOut ≤ 0 ∨ rIn ≤ 0 ∨ rOut ≤ 0 →
      ∃ e, UniswapV2Math.getAmountIn aOut rIn rOut = .error e) ∧
    (aOut ≤ 0 ∨ rIn ≤ 0 ∨ rOut ≤ 0 →
      UniswapV2Math.getAmountIn aOut rIn rOut = .error .invalidInput) ∧
    (0 < aOut → 0 < rIn → 0 < rOut → rOut ≤ aOut →
      UniswapV2Math.getAmountIn aOut rIn rOut = .error .insufficientLiquidity) := by
  refine ⟨?_, ?_, ?_, ?_⟩
  · intro h1 h2 h3
    have hD : (0 : ℤ) < (rOut - aOut) * 997 := by nlinarith
    unfold UniswapV2Math.getAmountIn UniswapV2Math.FEE_NUMERATOR UniswapV2Math.FEE_DENOMINATOR
    rw [if_neg (by omega), if_neg (by omega)]
    show Except.ok (ceilDiv (rIn * aOut * 1000) ((rOut - aOut) * 997) + 1) = _
    rw [ceilDiv_eq_ceil _ _ hD]
  · intro h
    unfold UniswapV2Math.getAmountIn
    by_cases hv : aOut ≤ 0 ∨ rIn ≤ 0 ∨ rOut ≤ 0
    · exact ⟨.invalidInput, by rw [if_pos hv]⟩
    · refine ⟨.insufficientLiquidity, ?_⟩
      rw [if_neg hv, if_pos (by omega)]
  · intro h
    unfold UniswapV2Math.getAmountIn
    rw [if_pos h]
  · intro h1 h2 h3 h4
    unfold UniswapV2Math.getAmountIn
    rw [if_neg (by omega), if_pos h4]

/-- Counterexample to claim C2 under faithful decimal.js semantics: at
`amountOut = 1`, `reserveIn = 1000`, `reserveOut = 2` (every
intermediate well within the 20-digit precision, so the decimal.js run
agrees with the exact one) the source returns `ceil(1000000/997) + 1 =
1005`, while the claimed value `floor(1000000/997) + 1` is `1004`. -/
theorem C2_getAmountInDec_counterexample :
    UniswapV2Math.getAmountInDec ((1:ℤ) : ℚ) ((1000:ℤ) : ℚ) ((2:ℤ) : ℚ) = .ok 1005 ∧
    ⌊((1000 * 1 * 1000 : ℤ) : ℚ) / (((2 - 1) * 997 : ℤ) : ℚ)⌋ + 1 = 1004 ∧
    (1005 : ℤ) ≠ 1004 := by
  refine ⟨?_, by norm_num, by decide⟩
  rw [UniswapV2Math.getAmountInDec_eq_exact 1 1000 2 (by decide) (by decide)
    (by decide) (by decide) (by decide)]
  rfl

/-- Claim C2 as amended: on inputs bounded by `10^8` with
`0 < amountOut < reserveOut` and `reserveIn > 0` (so the intermediates
stay within the 20-significant-digit precision), the faithful decimal.js
embedding of `getAmountIn` returns
`ceil((reserveIn*amountOut*1000) / ((reserveOut - amountOut)*997)) + 1`
(the source uses ceiling, not floor, before adding 1); when
`amountOut >= reserveOut` or any argument is non-positive it fails
unconditionally, with an invalid-input error for non-positive arguments
and an insufficient-liquidity error for `amountOut >= reserveOut` on
otherwise positive inputs. -/
theorem C2_getAmountInDec_amended (aOut rIn rOut : ℤ) :
    (0 < aOut → aOut < rOut → 0 < rIn → aOut ≤ 10 ^ 8 → rIn ≤ 10 ^ 8 → rOut ≤ 10 ^ 8 →
      UniswapV2Math.getAmountInDec (aOut : ℚ) (rIn : ℚ) (rOut : ℚ) =
        .ok (⌈((rIn * aOut * 1000 : ℤ) : ℚ) / (((rOut - aOut) * 997 : ℤ) : ℚ)⌉ + 1)) ∧
    (rOut ≤ aOut ∨ aOut ≤ 0 ∨ rIn ≤ 0 ∨ rOut ≤ 0 →
      ∃ e, UniswapV2Math.getAmountInDec (aOut : ℚ) (rIn : ℚ) (rOut : ℚ) = .error e) ∧
    (aOut ≤ 0 ∨ rIn ≤ 0 ∨ rOut ≤ 0 →
      UniswapV2Math.getAmountInDec (aOut : ℚ) (rIn : ℚ) (rOut : ℚ) =
        .error .invalidInput) ∧
    (0 < aOut → 0 < rIn → 0 < rOut → rOut ≤ aOut →
      UniswapV2Math.getAmountInDec (aOut : ℚ) (rIn : ℚ) (rOut : ℚ) =
        .error .insufficientLiquidity) := by
  refine ⟨?_, ?_, ?_, ?_⟩
  · intro h1 h2 h3 b1 b2 b3
    have hra : rIn * aOut ≤ 10 ^ 8 * 10 ^ 8 :=
      mul_le_mul b2 b1 h1.le (by norm_num)
    have hn : rIn * aOut * 1000 < 2 * 10 ^ 19 := by nlinarith
    have hd : (rOut - aOut) * 997 < 10 ^ 20 := by nlinarith
    rw [UniswapV2Math.getAmountInDec_eq_exact aOut rIn rOut h1 h3 h2 hn hd]
    exact (getAmountIn_exact_spec aOut rIn rOut).1 h1 h2 h3
  · intro h
    unfold UniswapV2Math.getAmountInDec
    by_cases hv : (aOut:ℚ) ≤ 0 ∨ (rIn:ℚ) ≤ 0 ∨ (rOut:ℚ) ≤ 0
    · exact ⟨.invalidInput, by rw [if_pos hv]⟩
    · refine ⟨.insufficientLiquidity, ?_⟩
      have hv2 := hv
      push_neg at hv2
      have hv' : 0 < aOut ∧ 0 < rIn ∧ 0 < rOut :=
        ⟨by exact_mod_cast hv2.1, by exact_mod_cast hv2.2.1,
          by exact_mod_cast hv2.2.2⟩
      have hro : rOut ≤ aOut := by omega
      rw [if_neg hv, if_pos (by exact_mod_cast hro : (rOut:ℚ) ≤ (aOut:ℚ))]
  · intro h
    unfold UniswapV2Math.getAmountInDec
    rcases h with h | h | h
    · rw [if_pos (Or.inl (by exact_mod_cast h : (aOut:ℚ) ≤ 0))]
    · rw [if_pos (Or.inr (Or.inl (by exact_mod_cast h : (rIn:ℚ) ≤ 0)))]
    · rw [if_pos (Or.inr (Or.inr (by exact_mod_cast h : (rOut:ℚ) ≤ 0)))]
  · intro h1 h2 h3 h4
    unfold UniswapV2Math.getAmountInDec
    have hA : ¬((aOut:ℚ) ≤ 0 ∨ (rIn:ℚ) ≤ 0 ∨ (rOut:ℚ) ≤ 0) := by
      push_neg
      exact ⟨by exact_mod_cast h1, by exact_mod_cast h2, by exact_mod_cast h3⟩
    rw [if_neg hA, if_pos (by exact_mod_cast h4 : (rOut:ℚ) ≤ (aOut:ℚ))]

/-- Witness for the amended C2 at `amountOut = 1`, `reserveIn = 1000`,
`reserveOut = 2`. -/
theorem C2_getAmountInDec_amended_witness :
    UniswapV2Math.getAmountInDec ((1:ℤ) : ℚ) ((1000:ℤ) : ℚ) ((2:ℤ) : ℚ) =
      .ok (⌈((1000 * 1 * 1000 : ℤ) : ℚ) / (((2 - 1) * 997 : ℤ) : ℚ)⌉ + 1) :=
  (C2_getAmountInDec_amended 1 1000 2).1 (by decide) (by decide) (by decide)
    (by decide) (by decide) (by decide)

/-- Round-trip property of the exact-arithmetic readings: for
`0 < amountOut < reserveOut` and `reserveIn > 0`, feeding
`getAmountIn`'s result back into `getAmountOut` on the same reserves
succeeds and yields at least the requested `amountOut`; the intermediate
amount is positive and at most `reserveIn * amountOut * 1000 + 1`.
Transferred to the faithful decimal.js embedding on bounded inputs in
`C3_roundtripDec_amended`. -/
theorem roundtrip_exact (aOut rIn rOut : ℤ) (h1 : 0 < aOut) (h2 : aOut < rOut)
    (h3 : 0 < rIn) :
    ∃ aIn amt,
      UniswapV2Math.getAmountIn aOut rIn rOut = .ok aIn ∧
      UniswapV2Math.getAmountOut aIn rIn rOut = .ok amt ∧
      aOut ≤ amt ∧ 0 < aIn ∧ aIn ≤ rIn * aOut * 1000 + 1 := by
  have hD : (0 : ℤ) < (rOut - aOut) * 997 := by nlinarith
  have hDQ : (0 : ℚ) < (((rOut - aOut) * 997 : ℤ) : ℚ) := by exact_mod_cast hD
  have hNQ : (0 : ℚ) < (((rIn * aOut * 1000 : ℤ)) : ℚ) := by
    have : (0 : ℤ) < rIn * aOut * 1000 := by nlinarith
    exact_mod_cast this
  set x : ℤ := ceilDiv (rIn * aOut * 1000) ((rOut - aOut) * 997) + 1 with hxdef
  have hxQ : (x : ℚ) =
      (⌈((rIn * aOut * 1000 : ℤ) : ℚ) / (((rOut - aOut) * 997 : ℤ) : ℚ)⌉ : ℚ) + 1 := by
    rw [hxdef, ceilDiv_eq_ceil _ _ hD]
    push_cast
    ring
  have hxpos : 0 < x := by
    have hc : 0 < ⌈((rIn * aOut * 1000 : ℤ) : ℚ) / (((rOut - aOut) * 997 : ℤ) : ℚ)⌉ :=
      Int.ceil_pos.mpr (div_pos hNQ hDQ)
    rw [hxdef, ceilDiv_eq_ceil _ _ hD]
    omega
  have hle := Int.le_ceil (((rIn * aOut * 1000 : ℤ) : ℚ) / (((rOut - aOut) * 997 : ℤ) : ℚ))
  have hmul := mul_le_mul_of_nonneg_right hle hDQ.le
  rw [div_mul_cancel₀ _ (ne_of_gt hDQ)] at hmul
  refine ⟨x, floorDiv (x * 997 * rOut) (rIn * 1000 + x * 997), ?_, ?_, ?_, hxpos, ?_⟩
  · unfold UniswapV2Math.getAmountIn UniswapV2Math.FEE_NUMERATOR UniswapV2Math.FEE_DENOMINATOR
    rw [if_neg (by omega), if_neg (by omega)]
  · unfold UniswapV2Math.getAmountOut UniswapV2Math.FEE_NUMERATOR UniswapV2Math.FEE_DENOMINATOR
    rw [if_neg (by omega), if_neg (by omega), if_neg (by omega)]
  · have hden : (0 : ℤ) < rIn * 1000 + x * 997 := by nlinarith
    have hdenQ : (0 : ℚ) < ((rIn * 1000 + x * 997 : ℤ) : ℚ) := by exact_mod_cast hden
    rw [floorDiv_eq_floor _ _ hden, Int.le_floor, le_div_iff₀ hdenQ]
    push_cast at hmul hxQ ⊢
    have h1' : (0 : ℚ) < (aOut : ℚ) := by exact_mod_cast h1
    have h2' : (aOut : ℚ) < (rOut : ℚ) := by exact_mod_cast h2
    have h3' : (0 : ℚ) < (rIn : ℚ) := by exact_mod_cast h3
    nlinarith [hmul, hxQ, hDQ, h1', h2', h3']
  · have hceil_le : ⌈((rIn * aOut * 1000 : ℤ) : ℚ) / (((rOut - aOut) * 997 : ℤ) : ℚ)⌉ ≤
        rIn * aOut * 1000 := by
      rw [Int.ceil_le]
      exact div_le_self hNQ.le
        (by exact_mod_cast (by nlinarith : (1:ℤ) ≤ (rOut - aOut) * 997))
    rw [hxdef, ceilDiv_eq_ceil _ _ hD]
    linarith [hceil_le]

/-- Counterexample to claim C3 under faithful decimal.js semantics: at
`amountOut = 10^21 + 1`, `reserveIn = 10^21 + 17`, `reserveOut =
10^21 + 2` the round trip loses precision at several 20-digit roundings
(`reserveIn * amountOut` rounds to `10^42`, the division by 997 is
rounded, and the final `.add(1)` is absorbed), and feeding the returned
input amount back into `getAmountOut` produces `10^21`, one wei short of
the requested `amountOut`: the claimed guarantee
`getAmountOut(getAmountIn(aOut, rIn, rOut), rIn, rOut) >= aOut` fails. -/
theorem C3_roundtripDec_counterexample :
    UniswapV2Math.getAmountInDec ((10:ℚ) ^ 21 + 1) ((10:ℚ) ^ 21 + 17) ((10:ℚ) ^ 21 + 2) =
      .ok (10030090270812437312 * 10 ^ 23) ∧
    UniswapV2Math.getAmountOutDec ((10030090270812437312 * 10 ^ 23 : ℤ) : ℚ)
      ((10:ℚ) ^ 21 + 17) ((10:ℚ) ^ 21 + 2) = .ok (10 ^ 21) ∧
    (10 ^ 21 : ℤ) < 10 ^ 21 + 1 := by
  refine ⟨?_, ?_, by decide⟩
  · have u1 : dMul ((10:ℚ) ^ 21 + 17) ((10:ℚ) ^ 21 + 1) = (10:ℚ) ^ 42 := by
      unfold dMul
      have h := roundSig_pos_eval (((10:ℚ) ^ 21 + 17) * ((10:ℚ) ^ 21 + 1)) 42 (10 ^ 19)
        (by positivity) (by norm_num) (by norm_num) (by norm_num)
      rw [h]
      push_cast
      norm_num
    have u2 : dMul ((10:ℚ) ^ 42) ((1000:ℤ):ℚ) = (10:ℚ) ^ 45 := by
      unfold dMul
      rw [show ((10:ℚ) ^ 42) * ((1000:ℤ):ℚ) = ((1:ℤ):ℚ) * 10 ^ 45 by push_cast; norm_num]
      rw [roundSig_int_mul_pow 1 45 (by norm_num) (by norm_num)]
      push_cast
      norm_num
    have u3 : dSub ((10:ℚ) ^ 21 + 2) ((10:ℚ) ^ 21 + 1) = 1 := by
      unfold dSub
      rw [show ((10:ℚ) ^ 21 + 2) - ((10:ℚ) ^ 21 + 1) = ((1:ℤ):ℚ) by push_cast; ring]
      rw [roundSig_intCast 1 (by norm_num) (by norm_num)]
      norm_num
    have u4 : dMul (1:ℚ) ((997:ℤ):ℚ) = 997 := by
      unfold dMul
      rw [show (1:ℚ) * ((997:ℤ):ℚ) = ((997:ℤ):ℚ) by push_cast; ring]
      rw [roundSig_intCast 997 (by norm_num) (by norm_num)]
      norm_num
    have u5 : dDiv ((10:ℚ) ^ 45) 997 = (10030090270812437312:ℚ) * 10 ^ 23 := by
      unfold dDiv
      have h := roundSig_pos_eval ((10:ℚ) ^ 45 / 997) 42 10030090270812437312
        (by positivity)
        (by rw [le_div_iff₀ (by norm_num)]; norm_num)
        (by rw [div_lt_iff₀ (by norm_num)]; norm_num)
        (by norm_num)
      rw [h]
      push_cast
      norm_num
    have u6 : (⌈(10030090270812437312:ℚ) * 10 ^ 23⌉ : ℤ) =
        10030090270812437312 * 10 ^ 23 := by
      rw [show (10030090270812437312:ℚ) * 10 ^ 23 =
        ((10030090270812437312 * 10 ^ 23 : ℤ):ℚ) by push_cast; ring]
      exact Int.ceil_intCast _
    have u7 : dAdd ((10030090270812437312 * 10 ^ 23 : ℤ):ℚ) 1 =
        ((10030090270812437312 * 10 ^ 23 : ℤ):ℚ) := by
      unfold dAdd
      have h := roundSig_pos_eval (((10030090270812437312 * 10 ^ 23 : ℤ):ℚ) + 1) 42
        10030090270812437312
        (by push_cast; norm_num) (by push_cast; norm_num) (by push_cast; norm_num)
        (by push_cast; norm_num)
      rw [h]
      push_cast
      norm_num
    unfold UniswapV2Math.getAmountInDec UniswapV2Math.FEE_NUMERATOR
      UniswapV2Math.FEE_DENOMINATOR
    rw [if_neg (by push_neg; refine ⟨by positivity, by positivity, by positivity⟩),
      if_neg (by norm_num)]
    show Except.ok ⌊dAdd ((⌈dDiv (dMul (dMul ((10:ℚ) ^ 21 + 17) ((10:ℚ) ^ 21 + 1))
          ((1000:ℤ):ℚ)) (dMul (dSub ((10:ℚ) ^ 21 + 2) ((10:ℚ) ^ 21 + 1))
          ((997:ℤ):ℚ))⌉ : ℤ) : ℚ) 1⌋ =
      Except.ok (10030090270812437312 * 10 ^ 23)
    rw [u1, u2, u3, u4, u5, u6, u7, Int.floor_intCast]
  · have v1 : dMul ((10030090270812437312 * 10 ^ 23 : ℤ):ℚ) ((997:ℤ):ℚ) =
        (10:ℚ) ^ 45 := by
      unfold dMul
      have h := roundSig_pos_eval (((10030090270812437312 * 10 ^ 23 : ℤ):ℚ) *
          ((997:ℤ):ℚ)) 45 (10 ^ 19)
        (by push_cast; norm_num) (by push_cast; norm_num) (by push_cast; norm_num)
        (by push_cast; norm_num)
      rw [h]
      push_cast
      norm_num
    have v2 : dMul ((10:ℚ) ^ 45) ((10:ℚ) ^ 21 + 2) = (10:ℚ) ^ 66 := by
      unfold dMul
      have h := roundSig_pos_eval ((10:ℚ) ^ 45 * ((10:ℚ) ^ 21 + 2)) 66 (10 ^ 19)
        (by positivity) (by norm_num) (by norm_num) (by norm_num)
      rw [h]
      push_cast
      norm_num
    have v3 : dMul ((10:ℚ) ^ 21 + 17) ((1000:ℤ):ℚ) = (10:ℚ) ^ 24 := by
      unfold dMul
      have h := roundSig_pos_eval (((10:ℚ) ^ 21 + 17) * ((1000:ℤ):ℚ)) 24 (10 ^ 19)
        (by push_cast; norm_num) (by push_cast; norm_num) (by push_cast; norm_num)
        (by push_cast; norm_num)
      rw [h]
      push_cast
      norm_num
    have v4 : dAdd ((10:ℚ) ^ 24) ((10:ℚ) ^ 45) = (10:ℚ) ^ 45 := by
      unfold dAdd
      have h := roundSig_pos_eval ((10:ℚ) ^ 24 + (10:ℚ) ^ 45) 45 (10 ^ 19)
        (by positivity) (by norm_num) (by norm_num) (by norm_num)
      rw [h]
      push_cast
      norm_num
    have v5 : ⌊dDiv ((10:ℚ) ^ 66) ((10:ℚ) ^ 45)⌋ = 10 ^ 21 := by
      unfold dDiv
      rw [show (10:ℚ) ^ 66 / (10:ℚ) ^ 45 = ((10:ℤ):ℚ) * 10 ^ 20 by
        rw [div_eq_iff (by positivity)]; push_cast; norm_num]
      rw [roundSig_int_mul_pow 10 20 (by norm_num) (by norm_num)]
      rw [show ((10:ℤ):ℚ) * 10 ^ 20 = ((10 ^ 21 : ℤ):ℚ) by push_cast; norm_num]
      exact Int.floor_intCast _
    unfold UniswapV2Math.getAmountOutDec UniswapV2Math.FEE_NUMERATOR
      UniswapV2Math.FEE_DENOMINATOR
    rw [if_neg (by push_cast; norm_num), if_neg (by norm_num), if_neg (by norm_num)]
    show Except.ok ⌊dDiv (dMul (dMul ((10030090270812437312 * 10 ^ 23 : ℤ):ℚ)
          ((997:ℤ):ℚ)) ((10:ℚ) ^ 21 + 2))
        (dAdd (dMul ((10:ℚ) ^ 21 + 17) ((1000:ℤ):ℚ))
          (dMul ((10030090270812437312 * 10 ^ 23 : ℤ):ℚ) ((997:ℤ):ℚ)))⌋ =
      Except.ok (10 ^ 21)
    rw [v1, v2, v3, v4, v5]

/-- Claim C3 as amended: on reserves bounded by `10^4` (so that every
intermediate of both legs stays within the 20-significant-digit
precision), for `0 < amountOut < reserveOut` and `reserveIn > 0` feeding
the faithful decimal.js `getAmountIn`'s result back into the faithful
`getAmountOut` on the same reserves succeeds and yields at least the
requested `amountOut`.  At wei scale the guarantee fails
(`C3_roundtripDec_counterexample`). -/
theorem C3_roundtripDec_amended (aOut rIn rOut : ℤ) (h1 : 0 < aOut) (h2 : aOut < rOut)
    (h3 : 0 < rIn) (hb1 : rIn ≤ 10 ^ 4) (hb2 : rOut ≤ 10 ^ 4) :
    ∃ aIn amt,
      UniswapV2Math.getAmountInDec (aOut : ℚ) (rIn : ℚ) (rOut : ℚ) = .ok aIn ∧
      UniswapV2Math.getAmountOutDec (aIn : ℚ) (rIn : ℚ) (rOut : ℚ) = .ok amt ∧
      aOut ≤ amt := by
  obtain ⟨aIn, amt, hin, hout, hge, hpos, hbd⟩ := roundtrip_exact aOut rIn rOut h1 h2 h3
  have h4 : (0:ℤ) < rOut := lt_trans h1 h2
  have hra : rIn * aOut ≤ 10 ^ 4 * 10 ^ 4 :=
    mul_le_mul hb1 (by omega) h1.le (by norm_num)
  have hNin : rIn * aOut * 1000 < 2 * 10 ^ 19 := by nlinarith
  have hDin : (rOut - aOut) * 997 < 10 ^ 20 := by nlinarith
  have hbd2 : aIn ≤ 10 ^ 11 + 1 := by nlinarith
  have hao : aIn * rOut ≤ (10 ^ 11 + 1) * 10 ^ 4 :=
    mul_le_mul hbd2 hb2 h4.le (by norm_num)
  have hnum : aIn * 997 * rOut < 2 * 10 ^ 19 := by nlinarith
  have hden : rIn * 1000 + aIn * 997 < 10 ^ 20 := by nlinarith
  refine ⟨aIn, amt, ?_, ?_, hge⟩
  · rw [UniswapV2Math.getAmountInDec_eq_exact aOut rIn rOut h1 h3 h2 hNin hDin]
    exact hin
  · rw [UniswapV2Math.getAmountOutDec_eq_exact aIn rIn rOut hpos h3 h4 hnum hden]
    exact hout

/-- Witness for the amended C3 at `amountOut = 5`, `reserveIn = 1000`,
`reserveOut = 100`. -/
theorem C3_roundtripDec_amended_witness :
    ∃ aIn amt,
      UniswapV2Math.getAmountInDec ((5:ℤ) : ℚ) ((1000:ℤ) : ℚ) ((100:ℤ) : ℚ) = .ok aIn ∧
      UniswapV2Math.getAmountOutDec (aIn : ℚ) ((1000:ℤ) : ℚ) ((100:ℤ) : ℚ) = .ok amt ∧
      (5 : ℤ) ≤ amt :=
  C3_roundtripDec_amended 5 1000 100 (by decide) (by decide) (by decide) (by decide)
    (by decide)

namespace UniswapV2Math

/-- Pool data as consumed by `findOptimalTradeSize`: an object with
`reserveIn` and `reserveOut` fields. -/
structure Pool where
  reserveIn : ℤ
  reserveOut : ℤ
deriving DecidableEq, Repr

/-- The body of the `try` block inside `findOptimalTradeSize`
(src/unnamed/part_002, lines 262-292): leg A→B on `poolA`, then leg
B→A on `poolB`, net profit `amountOutA - mid - gasCost`.  `none` models
the `catch` (either `getAmountOut` call throwing). -/
def twoLegProfit (poolA poolB : Pool) (gasCost : ℤ) (amount : ℤ) : Option ℤ :=
  match getAmountOut amount poolA.reserveIn poolA.reserveOut with
  | .error _ => none
  | .ok amountOutB =>
    match getAmountOut amountOutB poolB.reserveIn poolB.reserveOut with
    | .error _ => none
    | .ok amountOutA => some (amountOutA - amount - gasCost)

/-- The `while (high - low > 1)` loop of `findOptimalTradeSize`
(src/unnamed/part_002, lines 253-293), with an explicit fuel parameter
to make the recursion structural.  Each iteration strictly shrinks
`high - low`, so any fuel of at least `high - low - 1` makes the fuel
cutoff unreachable (`optLoop_fuel_irrelevant` below); `findOptimalTradeSize`
passes such a fuel.  `mid = floor((low + high) / 2)`; on a thrown
calculation the source moves `low` past `mid`; otherwise the best seen
`(optimalAmount, maxProfit)` is updated when `netProfit > maxProfit`, and
the window moves right when `netProfit > 0`, left otherwise. -/
def optLoop (poolA poolB : Pool) (gasCost : ℤ) :
    ℕ → ℤ → ℤ → ℤ → ℤ → ℤ × ℤ
  | 0, _, _, optimalAmount, maxProfit => (optimalAmount, maxProfit)
  | fuel + 1, low, high, optimalAmount, maxProfit =>
    if high - low ≤ 1 then (optimalAmount, maxProfit)
    else
      let mid := Int.fdiv (low + high) 2
      if mid ≤ 0 then optLoop poolA poolB gasCost fuel (mid + 1) high optimalAmount maxProfit
      else
        match twoLegProfit poolA poolB gasCost mid with
        | none => optLoop poolA poolB gasCost fuel (mid + 1) high optimalAmount maxProfit
        | some netProfit =>
          let optimalAmount' := if maxProfit < netProfit then mid else optimalAmount
          let maxProfit' := if maxProfit < netProfit then netProfit else maxProfit
          if 0 < netProfit then
            optLoop poolA poolB gasCost fuel mid high optimalAmount' maxProfit'
          else
            optLoop poolA poolB gasCost fuel low mid optimalAmount' maxProfit'

/-- Embedding of `UniswapV2Math.findOptimalTradeSize`
(src/unnamed/part_002, lines 242-309): binary search over
`[low, high] = [1, maxAmount]` tracking the best probed
`(optimalAmount, maxProfit)`, both initialized to 0. -/
def findOptimalTradeSize (poolA poolB : Pool) (maxAmount : ℤ) (gasCost : ℤ) : ℤ × ℤ :=
  optLoop poolA poolB gasCost (maxAmount - 1).toNat 1 maxAmount 0 0

end UniswapV2Math

/-- The fuel parameter of `optLoop` is inessential: any fuel of at least
`high - low - 1` iterations yields the same result, so the fuel cutoff
is never reached from `findOptimalTradeSize`'s initial state. -/
theorem optLoop_fuel_irrelevant (poolA poolB : UniswapV2Math.Pool) (gasCost : ℤ) :
    ∀ f g low high opt maxP,
      (high - low - 1).toNat ≤ f → (high - low - 1).toNat ≤ g →
      UniswapV2Math.optLoop poolA poolB gasCost f low high opt maxP =
        UniswapV2Math.optLoop poolA poolB gasCost g low high opt maxP := by
  intro f
  induction f with
  | zero =>
    intro g low high opt maxP hf hg
    have hw : high - low ≤ 1 := by omega
    cases g with
    | zero => rfl
    | succ g' =>
      simp only [UniswapV2Math.optLoop]
      rw [if_pos hw]
  | succ f' ih =>
    intro g low high opt maxP hf hg
    cases g with
    | zero =>
      have hw : high - low ≤ 1 := by omega
      simp only [UniswapV2Math.optLoop]
      rw [if_pos hw]
    | succ g' =>
      simp only [UniswapV2Math.optLoop]
      by_cases hw : high - low ≤ 1
      · rw [if_pos hw, if_pos hw]
      · rw [if_neg hw, if_neg hw]
        have hmid : Int.fdiv (low + high) 2 = (low + high) / 2 :=
          Int.fdiv_eq_ediv _ (by norm_num)
        by_cases hm : Int.fdiv (low + high) 2 ≤ 0
        · rw [if_pos hm, if_pos hm]
          exact ih g' _ high opt maxP (by omega) (by omega)
        · rw [if_neg hm, if_neg hm]
          cases htl : UniswapV2Math.twoLegProfit poolA poolB gasCost
              (Int.fdiv (low + high) 2) with
          | none =>
            exact ih g' _ high opt maxP (by omega) (by omega)
          | some netProfit =>
            dsimp only
            by_cases hp : 0 < netProfit
            · rw [if_pos hp, if_pos hp]
              exact ih g' _ high _ _ (by omega) (by omega)
            · rw [if_neg hp, if_neg hp]
              exact ih g' low _ _ _ (by omega) (by omega)

/-- `optLoop` never decreases the running `maxProfit`. -/
theorem optLoop_maxProfit_mono (poolA poolB : UniswapV2Math.Pool) (gasCost : ℤ) :
    ∀ f low high opt maxP,
      maxP ≤ (UniswapV2Math.optLoop poolA poolB gasCost f low high opt maxP).2 := by
  intro f
  induction f with
  | zero =>
    intro low high opt maxP
    exact le_refl _
  | succ f' ih =>
    intro low high opt maxP
    simp only [UniswapV2Math.optLoop]
    by_cases hw : high - low ≤ 1
    · rw [if_pos hw]
    · rw [if_neg hw]
      by_cases hm : Int.fdiv (low + high) 2 ≤ 0
      · rw [if_pos hm]
        exact ih _ high opt maxP
      · rw [if_neg hm]
        cases htl : UniswapV2Math.twoLegProfit poolA poolB gasCost
            (Int.fdiv (low + high) 2) with
        | none => exact ih _ high opt maxP
        | some netProfit =>
          dsimp only
          by_cases hp : 0 < netProfit
          · rw [if_pos hp]
            by_cases hup : maxP < netProfit
            · rw [if_pos hup, if_pos hup]
              exact le_trans hup.le (ih _ high _ _)
            · rw [if_neg hup, if_neg hup]
              exact ih _ high _ _
          · rw [if_neg hp]
            by_cases hup : maxP < netProfit
            · rw [if_pos hup, if_pos hup]
              exact le_trans hup.le (ih low _ _ _)
            · rw [if_neg hup, if_neg hup]
              exact ih low _ _ _

/-- When no amount in `[1, maxAmount]` has strictly positive profit,
`optLoop` started at `(optimalAmount, maxProfit) = (0, 0)` on a window
inside `[1, maxAmount]` returns `(0, 0)`. -/
theorem optLoop_all_nonpos (poolA poolB : UniswapV2Math.Pool) (gasCost maxAmount : ℤ)
    (H : ∀ a ∈ Finset.Icc (1 : ℤ) maxAmount,
      (UniswapV2Math.twoLegProfit poolA poolB gasCost a).getD 0 ≤ 0) :
    ∀ f low high, 1 ≤ low → high ≤ maxAmount →
      UniswapV2Math.optLoop poolA poolB gasCost f low high 0 0 = (0, 0) := by
  intro f
  induction f with
  | zero =>
    intro low high hlow hhigh
    rfl
  | succ f' ih =>
    intro low high hlow hhigh
    simp only [UniswapV2Math.optLoop]
    by_cases hw : high - low ≤ 1
    · rw [if_pos hw]
    · rw [if_neg hw]
      have hmid : Int.fdiv (low + high) 2 = (low + high) / 2 :=
        Int.fdiv_eq_ediv _ (by norm_num)
      have hm1 : low + 1 ≤ Int.fdiv (low + high) 2 := by omega
      have hm2 : Int.fdiv (low + high) 2 ≤ high - 1 := by omega
      rw [if_neg (by omega)]
      cases htl : UniswapV2Math.twoLegProfit poolA poolB gasCost
          (Int.fdiv (low + high) 2) with
      | none => exact ih _ high (by omega) hhigh
      | some netProfit =>
        dsimp only
        have hnp : netProfit ≤ 0 := by
          have := H (Int.fdiv (low + high) 2) (Finset.mem_Icc.mpr ⟨by omega, by omega⟩)
          rw [htl] at this
          exact this
        simp only [if_neg (show ¬(0 : ℤ) < netProfit by omega)]
        exact ih low _ hlow (by omega)

/-- Claim C10: `findOptimalTradeSize` never reports a loss: the returned
`maxProfit` is at least 0 on every input, and when no amount in
`[1, maxAmount]` yields strictly positive net profit the result is
exactly `(optimalAmount, maxProfit) = (0, 0)`. -/
theorem C10_findOptimalTradeSize_no_loss (poolA poolB : UniswapV2Math.Pool)
    (maxAmount gasCost : ℤ) :
    0 ≤ (UniswapV2Math.findOptimalTradeSize poolA poolB maxAmount gasCost).2 ∧
    ((∀ a ∈ Finset.Icc (1 : ℤ) maxAmount,
        (UniswapV2Math.twoLegProfit poolA poolB gasCost a).getD 0 ≤ 0) →
      UniswapV2Math.findOptimalTradeSize poolA poolB maxAmount gasCost = (0, 0)) := by
  constructor
  · exact optLoop_maxProfit_mono poolA poolB gasCost _ 1 maxAmount 0 0
  · intro H
    exact optLoop_all_nonpos poolA poolB gasCost maxAmount H _ 1 maxAmount
      (le_refl 1) (le_refl maxAmount)

/-- Witness for C10: two fee-only pools with no price gap; every probe
loses money, so the search returns `(0, 0)`. -/
theorem C10_findOptimalTradeSize_no_loss_witness :
    0 ≤ (UniswapV2Math.findOptimalTradeSize ⟨10, 10⟩ ⟨10, 10⟩ 5 0).2 ∧
    UniswapV2Math.findOptimalTradeSize ⟨10, 10⟩ ⟨10, 10⟩ 5 0 = (0, 0) :=
  ⟨(C10_findOptimalTradeSize_no_loss ⟨10, 10⟩ ⟨10, 10⟩ 5 0).1,
    (C10_findOptimalTradeSize_no_loss ⟨10, 10⟩ ⟨10, 10⟩ 5 0).2 (by decide)⟩

/-- Claim C4 fails on the code: on pools `A = (1000, 1000)`,
`B = (1000, 2000)` with `maxAmount = 1000` and `gasCost = 0`, the binary
search returns amount 250 with net profit 81, while amount 210 has net
profit 84 — more than 1 above the returned value, so the result is not
within 1 of the true maximum of the (unimodal) profit function. -/
theorem C4_findOptimalTradeSize_failing_input :
    UniswapV2Math.findOptimalTradeSize ⟨1000, 1000⟩ ⟨1000, 2000⟩ 1000 0 = (250, 81) ∧
    UniswapV2Math.twoLegProfit ⟨1000, 1000⟩ ⟨1000, 2000⟩ 0 210 = some 84 ∧
    ¬((84 : ℤ) ≤ 81 + 1) :=
  ⟨by decide, by decide, by decide⟩

namespace Web3Manager

/-- Mutable failover state of `Web3Manager`
(src/src/services/blockchain/Web3Manager.js, constructor lines 18-22). -/
structure Web3State where
  currentProviderIndex : ℕ
  failureCount : ℕ
  lastFailureTime : ℤ
deriving DecidableEq, Repr

/-- Failover configuration: provider count, `failoverThreshold`
(default 3) and `cooldownPeriod` (default 60000 ms). -/
structure Web3Options where
  numProviders : ℕ
  failoverThreshold : ℕ
  cooldownPeriod : ℤ
deriving DecidableEq, Repr

/-- Embedding of `Web3Manager.shouldRotateProvider` (lines 101-106):
`failureCount >= failoverThreshold && Date.now() - lastFailureTime > cooldownPeriod`,
with `now` the value of the `Date.now()` call made inside this method. -/
def shouldRotateProvider (opts : Web3Options) (s : Web3State) (now : ℤ) : Bool :=
  decide (opts.failoverThreshold ≤ s.failureCount) &&
    decide (opts.cooldownPeriod < now - s.lastFailureTime)

/-- Embedding of `Web3Manager.rotateProvider` (lines 111-122): advance the
index cyclically and reset the failure count. -/
def rotateProvider (opts : Web3Options) (s : Web3State) : Web3State :=
  { currentProviderIndex := (s.currentProviderIndex + 1) % opts.numProviders,
    failureCount := 0,
    lastFailureTime := s.lastFailureTime }

/-- Embedding of the `catch` block of `Web3Manager.executeWithFailover`
(lines 77-91): increment `failureCount`, set `lastFailureTime` to
`Date.now()` (`tFail`), then rotate if `shouldRotateProvider` holds at the
`Date.now()` observed inside it (`tCheck`, a few milliseconds later). -/
def onOperationFailure (opts : Web3Options) (s : Web3State) (tFail tCheck : ℤ) : Web3State :=
  let s1 : Web3State :=
    { currentProviderIndex := s.currentProviderIndex,
      failureCount := s.failureCount + 1,
      lastFailureTime := tFail }
  if shouldRotateProvider opts s1 tCheck then rotateProvider opts s1 else s1

/-- A run of `executeWithFailover` in which every attempt fails: the
state after folding the `catch` block over the listed failure times
(`tFail`, `tCheck`) of each attempt. -/
def applyFailures (opts : Web3Options) (s : Web3State) (failures : List (ℤ × ℤ)) : Web3State :=
  failures.foldl (fun st t => onOperationFailure opts st t.1 t.2) s

end Web3Manager

/-- Because the `catch` block sets `lastFailureTime := Date.now()`
immediately before `shouldRotateProvider` re-reads the clock, rotation
requires the two `Date.now()` calls to lie more than `cooldownPeriod`
apart; whenever they do not, no rotation happens on that failure. -/
theorem onOperationFailure_no_rotation (opts : Web3Manager.Web3Options)
    (s : Web3Manager.Web3State) (tFail tCheck : ℤ)
    (h : tCheck - tFail ≤ opts.cooldownPeriod) :
    Web3Manager.onOperationFailure opts s tFail tCheck =
      { currentProviderIndex := s.currentProviderIndex,
        failureCount := s.failureCount + 1,
        lastFailureTime := tFail } := by
  unfold Web3Manager.onOperationFailure
  rw [if_neg]
  simp only [Web3Manager.shouldRotateProvider, Bool.and_eq_true, decide_eq_true_eq]
  intro hc
  omega

/-- Claim C7 fails on the code: with two providers, `failoverThreshold = 3`
and `cooldownPeriod = 60000`, after three consecutive failures (each with
the clock advancing less than the cooldown between the failure timestamp
and the rotation check) the provider index is still 0 and the failure
count is 3 — the pool never rotates, because the rotation check compares
against the `lastFailureTime` that was set immediately before it. -/
theorem C7_failover_failing_input :
    Web3Manager.applyFailures ⟨2, 3, 60000⟩ ⟨0, 0, 0⟩
        [(1000, 1000), (2000, 2000), (3000, 3000)] =
      ⟨0, 3, 3000⟩ ∧
    (Web3Manager.applyFailures ⟨2, 3, 60000⟩ ⟨0, 0, 0⟩
        [(1000, 1000), (2000, 2000), (3000, 3000)]).currentProviderIndex ≠ 1 := by
  constructor
  · rfl
  · intro h
    simp [Web3Manager.applyFailures, Web3Manager.onOperationFailure,
      Web3Manager.shouldRotateProvider, Web3Manager.rotateProvider] at h

namespace DatabaseService

/-- A row of the `opportunities` table
(src/src/services/database/DatabaseService.js, lines 60-86); `id` is the
`TEXT PRIMARY KEY`, the remaining columns are kept representative. -/
structure OppRow where
  id : String
  kindText : String
  netProfitUSD : String
  timestamp : ℤ
deriving DecidableEq, Repr

/-- SQLite `INSERT OR REPLACE`: any existing row that conflicts on the
primary key `id` is deleted, then the new row is inserted. -/
def insertOrReplace (table : List OppRow) (row : OppRow) : List OppRow :=
  (table.filter (fun r => r.id ≠ row.id)) ++ [row]

/-- Embedding of `DatabaseService.storeOpportunity` (lines 136-191): if
the database is initialized, runs `INSERT OR REPLACE INTO opportunities`;
otherwise the thrown error is swallowed and nothing is written. -/
def storeOpportunity (initialized : Bool) (table : List OppRow) (row : OppRow) :
    List OppRow :=
  if initialized then insertOrReplace table row else table

/-- Number of rows of the table carrying a given id. -/
def countId (table : List OppRow) (i : String) : ℕ :=
  (table.filter (fun r => r.id = i)).length

end DatabaseService

/-- A single `storeOpportunity` leaves exactly one row with the stored id,
whatever the prior table contents. -/
theorem storeOpportunity_countId_one (table : List DatabaseService.OppRow)
    (row : DatabaseService.OppRow) :
    DatabaseService.countId (DatabaseService.storeOpportunity true table row) row.id = 1 := by
  unfold DatabaseService.storeOpportunity DatabaseService.insertOrReplace
    DatabaseService.countId
  rw [if_pos rfl, List.filter_append]
  have hnil : (table.filter (fun r => r.id ≠ row.id)).filter (fun r => r.id = row.id) = [] := by
    induction table with
    | nil => rfl
    | cons hd tl ih =>
      by_cases h : hd.id = row.id
      · simp [h, ih]
      · simp [h, ih]
  rw [hnil]
  simp

/-- Claim C8: storing an opportunity any positive number of times with the
same id leaves exactly one row with that id in the `opportunities` table
(`id` is the primary key and `INSERT OR REPLACE` replaces rather than
duplicates). -/
theorem C8_storeOpportunity_idempotent (table : List DatabaseService.OppRow)
    (row : DatabaseService.OppRow) (n : ℕ) (hn : 1 ≤ n) :
    DatabaseService.countId
      ((fun t => DatabaseService.storeOpportunity true t row)^[n] table) row.id = 1 := by
  obtain ⟨m, rfl⟩ : ∃ m, n = m + 1 := ⟨n - 1, by omega⟩
  rw [Function.iterate_succ_apply']
  exact storeOpportunity_countId_one _ row

/-- Witness for C8: storing the same opportunity id twice into an empty
table yields exactly one row. -/
theorem C8_storeOpportunity_idempotent_witness :
    DatabaseService.countId
      ((fun t => DatabaseService.storeOpportunity true t
        ⟨"opp-1", "direct", "12.5", 0⟩)^[2] []) "opp-1" = 1 :=
  C8_storeOpportunity_idempotent [] ⟨"opp-1", "direct", "12.5", 0⟩ 2 (by decide)

namespace TradingStrategyEngine

/-- `TradingStrategyEngine` options (src/unnamed/part_003, lines 21-31),
restricted to the fields the embedded functions read. -/
structure StrategyOptions where
  minProfitUSD : ℚ
  minProfitMargin : ℚ
  maxPositionSizeUSD : ℤ
  gasBuffer : ℚ
  opportunityTimeout : ℤ
  minLiquidityUSD : ℚ
deriving DecidableEq, Repr

/-- The constructor defaults: minProfitUSD 10, minProfitMargin 0.005,
maxPositionSizeUSD 10000, gasBuffer 1.2, opportunityTimeout 30000 ms,
minLiquidityUSD 100000. -/
def defaultOptions : StrategyOptions := ⟨10, 5 / 1000, 10000, 6 / 5, 30000, 100000⟩

/-- Per-DEX price data consumed by the detector: spot price `price0`,
the raw pair reserves (on-chain integers), and the derived liquidity in
USD.  String identity fields (dex name, pair address) are omitted. -/
structure DexData where
  price0 : ℚ
  reserves : List ℤ
  liquidityUSD : ℚ
deriving DecidableEq, Repr

/-- The opportunity record built by `calculateArbitrageOpportunity`
(src/unnamed/part_003, lines 251-274), numeric and temporal fields only
(string identity fields omitted).  `profitMargin` is `Option ℚ`: `none`
models the decimal.js `Infinity`/`NaN` that `netProfit.dividedBy(gasCost)`
produces when `gasCost` is zero. -/
structure Opportunity where
  buyPrice : ℚ
  sellPrice : ℚ
  priceDifference : ℚ
  priceDifferencePercent : ℚ
  optimalAmount : ℚ
  grossProfitUSD : ℚ
  gasCostUSD : ℚ
  netProfitUSD : ℚ
  profitMargin : Option ℚ
  buyLiquidityUSD : ℚ
  sellLiquidityUSD : ℚ
  timestamp : ℤ
  expiresAt : ℤ
  qualified : Bool
  executed : Bool
deriving DecidableEq, Repr

/-- decimal.js division as used for the profit margin: `none` models the
`Infinity`/`NaN` result of dividing by zero (decimal.js does not throw). -/
def decDiv (a b : ℚ) : Option ℚ := if b = 0 then none else some (a / b)

/-- Embedding of `TradingStrategyEngine.calculateGasCost`
(src/unnamed/part_003, lines 420-445): 300k gas times `gasBuffer` times
`gasPrice` wei, converted to USD at a fixed ETH price of 2000. -/
def calculateGasCost (gasPrice : ℚ) (opts : StrategyOptions) : ℚ :=
  let estimatedGas : ℚ := 300000
  let gasWithBuffer := estimatedGas * opts.gasBuffer
  let gasCostWei := gasWithBuffer * gasPrice
  let ethPriceUSD : ℚ := 2000
  gasCostWei / 10 ^ 18 * ethPriceUSD

/-- Embedding of `TradingStrategyEngine.calculateGrossProfit`
(src/unnamed/part_003, lines 390-413); exact for `buyPrice ≠ 0`, which
holds wherever the theorems below use it. -/
def calculateGrossProfit (amount buyPrice sellPrice : ℚ) : ℚ :=
  let tokensReceived := amount / buyPrice
  let usdReceived := tokensReceived * sellPrice
  usdReceived - amount

/-- Embedding of `TradingStrategyEngine.calculateOptimalTradeSize`
(src/unnamed/part_003, lines 296-381): validates the reserve arrays
(fewer than two entries, or any non-positive reserve, yields 0), builds
`poolA = (buy[0], buy[1])` and `poolB = (sell[1], sell[0])`, runs
`findOptimalTradeSize` with the hard-coded inner gas cost of 60 USD and
`maxAmount = maxPositionSizeUSD`, and returns 0 unless the resulting
amount is positive. -/
def calculateOptimalTradeSize (buyDex sellDex : DexData) (opts : StrategyOptions) : ℚ :=
  match buyDex.reserves, sellDex.reserves with
  | b0 :: b1 :: _, s0 :: s1 :: _ =>
    if b0 ≤ 0 ∨ b1 ≤ 0 ∨ s0 ≤ 0 ∨ s1 ≤ 0 then 0
    else
      let poolA : UniswapV2Math.Pool := ⟨b0, b1⟩
      let poolB : UniswapV2Math.Pool := ⟨s1, s0⟩
      let result := UniswapV2Math.findOptimalTradeSize poolA poolB opts.maxPositionSizeUSD 60
      if result.1 ≤ 0 then 0 else (result.1 : ℚ)
  | _, _ => 0

/-- Embedding of `TradingStrategyEngine.calculateArbitrageOpportunity`
(src/unnamed/part_003, lines 217-288): skip when the relative price gap
is below `minProfitMargin`, skip when the optimal size is non-positive,
otherwise build the opportunity record with
`netProfit = grossProfit - gasCost` and
`profitMargin = netProfit / gasCost` (a plain decimal.js division).
`none` models the `return null` paths. -/
def calculateArbitrageOpportunity (buyDex sellDex : DexData) (gasPrice : ℚ)
    (now : ℤ) (opts : StrategyOptions) : Option Opportunity :=
  let buyPrice := buyDex.price0
  let sellPrice := sellDex.price0
  let priceDiff := sellPrice - buyPrice
  let priceDiffPercent := priceDiff / buyPrice * 100
  if priceDiffPercent < opts.minProfitMargin * 100 then none
  else
    let optimalAmount := calculateOptimalTradeSize buyDex sellDex opts
    if optimalAmount ≤ 0 then none
    else
      let grossProfit := calculateGrossProfit optimalAmount buyPrice sellPrice
      let gasCost := calculateGasCost gasPrice opts
      let netProfit := grossProfit - gasCost
      let profitMargin := decDiv netProfit gasCost
      some
        { buyPrice := buyPrice
          sellPrice := sellPrice
          priceDifference := priceDiff
          priceDifferencePercent := priceDiffPercent
          optimalAmount := optimalAmount
          grossProfitUSD := grossProfit
          gasCostUSD := gasCost
          netProfitUSD := netProfit
          profitMargin := profitMargin
          buyLiquidityUSD := buyDex.liquidityUSD
          sellLiquidityUSD := sellDex.liquidityUSD
          timestamp := now
          expiresAt := now + opts.opportunityTimeout
          qualified := false
          executed := false }

/-- The profit-margin rejection test inside `qualifyOpportunity`:
`profitMargin.lessThan(minProfitMargin)`.  A margin of `Infinity`/`NaN`
(modeled `none`) makes decimal.js `lessThan` return false, so it never
triggers the rejection. -/
def marginBelow (pm : Option ℚ) (minMargin : ℚ) : Bool :=
  match pm with
  | some m => decide (m < minMargin)
  | none => false

/-- Embedding of `TradingStrategyEngine.qualifyOpportunity`
(src/unnamed/part_003, lines 478-531): reject below `minProfitUSD`,
below `minProfitMargin`, below `minLiquidityUSD` on either side, or when
`Date.now() > expiresAt` (`now` is the `Date.now()` value); otherwise the
opportunity is marked qualified and `true` is returned. -/
def qualifyOpportunity (opp : Opportunity) (opts : StrategyOptions) (now : ℤ) : Bool :=
  if opp.netProfitUSD < opts.minProfitUSD then false
  else if marginBelow opp.profitMargin opts.minProfitMargin then false
  else if opp.buyLiquidityUSD < opts.minLiquidityUSD ∨
      opp.sellLiquidityUSD < opts.minLiquidityUSD then false
  else if opp.expiresAt < now then false
  else true

/-- The margin formula claimed by the specification:
`net_profit / max(1, gas_cost + fee_cost)`.  Returns whether the recorded
margin equals it. -/
def marginMatchesSpec (o : Opportunity) (feeCost : ℚ) : Bool :=
  o.profitMargin = some (o.netProfitUSD / max 1 (o.gasCostUSD + feeCost))

end TradingStrategyEngine

/-- Claim C5: whenever `qualifyOpportunity` returns `true`, the
opportunity meets every threshold: net profit at least `minProfitUSD`,
any finite profit margin at least `minProfitMargin`, both liquidities at
least `minLiquidityUSD`, and the opportunity has not expired. -/
theorem C5_qualifyOpportunity_invariant (opp : TradingStrategyEngine.Opportunity)
    (opts : TradingStrategyEngine.StrategyOptions) (now : ℤ)
    (h : TradingStrategyEngine.qualifyOpportunity opp opts now = true) :
    opts.minProfitUSD ≤ opp.netProfitUSD ∧
    (∀ m, opp.profitMargin = some m → opts.minProfitMargin ≤ m) ∧
    opts.minLiquidityUSD ≤ opp.buyLiquidityUSD ∧
    opts.minLiquidityUSD ≤ opp.sellLiquidityUSD ∧
    now ≤ opp.expiresAt := by
  unfold TradingStrategyEngine.qualifyOpportunity at h
  split_ifs at h with h1 h2 h3 h4
  push_neg at h3
  refine ⟨not_lt.mp h1, ?_, h3.1, h3.2, not_lt.mp h4⟩
  intro m hm
  rw [hm] at h2
  simp only [TradingStrategyEngine.marginBelow, decide_eq_true_eq] at h2
  exact not_lt.mp h2

/-- A concrete opportunity meeting all of the default-style thresholds,
used to witness C5. -/
def qualOppEx : TradingStrategyEngine.Opportunity :=
  { buyPrice := 1
    sellPrice := 2
    priceDifference := 1
    priceDifferencePercent := 100
    optimalAmount := 100
    grossProfitUSD := 160
    gasCostUSD := 60
    netProfitUSD := 100
    profitMargin := some 1
    buyLiquidityUSD := 200000
    sellLiquidityUSD := 200000
    timestamp := 0
    expiresAt := 30000
    qualified := false
    executed := false }

/-- Integer-valued options used by concrete witnesses. -/
def intOptions : TradingStrategyEngine.StrategyOptions := ⟨10, 1, 10000, 1, 30000, 100000⟩

/-- Witness for C5 on a concrete qualifying opportunity. -/
theorem C5_qualifyOpportunity_invariant_witness :
    intOptions.minProfitUSD ≤ qualOppEx.netProfitUSD ∧
    (∀ m, qualOppEx.profitMargin = some m → intOptions.minProfitMargin ≤ m) ∧
    intOptions.minLiquidityUSD ≤ qualOppEx.buyLiquidityUSD ∧
    intOptions.minLiquidityUSD ≤ qualOppEx.sellLiquidityUSD ∧
    (0 : ℤ) ≤ qualOppEx.expiresAt :=
  C5_qualifyOpportunity_invariant qualOppEx intOptions 0 (by decide)

/-- Inputs for the C9 counterexample: 1000/1000 vs 2000/1000 pools with a
2x price gap, a 0.5 gwei gas price (so the gas cost is 0.36 USD, below
the claimed `max(1, ...)` floor), and the default options with
`maxPositionSizeUSD = 1000`. -/
def cexBuyDex : TradingStrategyEngine.DexData := ⟨1, [1000, 1000], 200000⟩

/-- Sell-side pool data for the C9 counterexample. -/
def cexSellDex : TradingStrategyEngine.DexData := ⟨2, [2000, 1000], 200000⟩

/-- Options for the C9 counterexample (defaults, maxPositionSizeUSD 1000). -/
def cexOptions : TradingStrategyEngine.StrategyOptions :=
  ⟨10, 5 / 1000, 1000, 6 / 5, 30000, 100000⟩

/-- The opportunity the embedded pipeline produces on the C9
counterexample inputs. -/
def cexOpportunity : TradingStrategyEngine.Opportunity :=
  { buyPrice := 1
    sellPrice := 2
    priceDifference := 1
    priceDifferencePercent := 100
    optimalAmount := 250
    grossProfitUSD := 250
    gasCostUSD := 9 / 25
    netProfitUSD := 6241 / 25
    profitMargin := some (6241 / 9)
    buyLiquidityUSD := 200000
    sellLiquidityUSD := 200000
    timestamp := 0
    expiresAt := 30000
    qualified := false
    executed := false }

/-- Evaluation of the embedded `calculateArbitrageOpportunity` on the C9
counterexample inputs. -/
theorem cexCalc_eval :
    TradingStrategyEngine.calculateArbitrageOpportunity cexBuyDex cexSellDex
      (5 * 10 ^ 8) 0 cexOptions = some cexOpportunity := by
  have hopt : UniswapV2Math.findOptimalTradeSize ⟨1000, 1000⟩ ⟨1000, 2000⟩ 1000 60 =
      (250, 21) := by decide
  unfold TradingStrategyEngine.calculateArbitrageOpportunity
    TradingStrategyEngine.calculateOptimalTradeSize cexBuyDex cexSellDex cexOptions
    cexOpportunity
  norm_num [TradingStrategyEngine.calculateGasCost,
    TradingStrategyEngine.calculateGrossProfit, TradingStrategyEngine.decDiv, hopt]

/-- Counterexample to claim C9: on the inputs above the detector emits an
opportunity whose recorded margin is `netProfit / gasCost = 6241/9`,
whereas `net_profit / max(1, gas_cost + fee_cost) = 6241/25`
(`gasCost = 0.36 < 1` and there is no fee-cost term in the code). -/
theorem C9_margin_counterexample :
    (TradingStrategyEngine.calculateArbitrageOpportunity cexBuyDex cexSellDex
        (5 * 10 ^ 8) 0 cexOptions).map
      (fun o => TradingStrategyEngine.marginMatchesSpec o 0) = some false := by
  rw [cexCalc_eval]
  norm_num [TradingStrategyEngine.marginMatchesSpec, cexOpportunity]

/-- Claim C9 as amended: for every opportunity the detector emits, the
recorded margin is `netProfitUSD / gasCostUSD` — with no `max(1, ...)`
guard and no fee-cost term; in particular when the gas cost is zero the
margin is an `Infinity`/`NaN` division-by-zero artifact (modeled `none`),
not `netProfit / 1`. -/
theorem C9_margin_amended (buyDex sellDex : TradingStrategyEngine.DexData)
    (gasPrice : ℚ) (now : ℤ) (opts : TradingStrategyEngine.StrategyOptions)
    (opp : TradingStrategyEngine.Opportunity)
    (h : TradingStrategyEngine.calculateArbitrageOpportunity buyDex sellDex gasPrice
      now opts = some opp) :
    opp.profitMargin = TradingStrategyEngine.decDiv opp.netProfitUSD opp.gasCostUSD ∧
    (opp.gasCostUSD ≠ 0 →
      opp.profitMargin = some (opp.netProfitUSD / opp.gasCostUSD)) ∧
    (opp.gasCostUSD = 0 → opp.profitMargin = none) := by
  unfold TradingStrategyEngine.calculateArbitrageOpportunity at h
  dsimp only at h
  split_ifs at h with h1 h2
  all_goals cases h
  refine ⟨rfl, ?_, ?_⟩
  · intro hgz
    simp only [TradingStrategyEngine.decDiv, if_neg hgz]
  · intro hgz
    simp only [TradingStrategyEngine.decDiv, if_pos hgz]

/-- Witness for the amended C9 at the concrete counterexample input. -/
theorem C9_margin_amended_witness :
    cexOpportunity.profitMargin =
      TradingStrategyEngine.decDiv cexOpportunity.netProfitUSD cexOpportunity.gasCostUSD ∧
    (cexOpportunity.gasCostUSD ≠ 0 →
      cexOpportunity.profitMargin =
        some (cexOpportunity.netProfitUSD / cexOpportunity.gasCostUSD)) ∧
    (cexOpportunity.gasCostUSD = 0 → cexOpportunity.profitMargin = none) :=
  C9_margin_amended cexBuyDex cexSellDex (5 * 10 ^ 8) 0 cexOptions cexOpportunity
    cexCalc_eval

namespace ComprehensiveArbitrageBot

/-- `ComprehensiveArbitrageBot` configuration (src/unnamed/part_000,
lines 93-111), restricted to the fields the triangular scan reads.
Defaults: minProfitUSD 10, safetyMargin 0.1, gasEstimate 300000,
ethPriceUSD 2000, testMode true, enableRealPriceFetching true. -/
structure BotConfig where
  minProfitUSD : ℚ
  safetyMargin : ℚ
  gasEstimate : ℚ
  ethPriceUSD : ℚ
  testMode : Bool
  enableRealPriceFetching : Bool
deriving DecidableEq, Repr

/-- The constructor defaults of the bot configuration. -/
def defaultBotConfig : BotConfig := ⟨10, 1 / 10, 300000, 2000, true, true⟩

/-- Numeric fields of a triangular/direct opportunity record as built by
`calculateTriangularArbitrage` and `generateTestOpportunities`
(src/unnamed/part_000); `isTriangular` models the `type` field
(`'triangular'` vs `'direct'`), string identity fields are omitted. -/
structure TriOpportunity where
  isTriangular : Bool
  tradeAmount : ℚ
  grossProfitUSD : ℚ
  gasCostUSD : ℚ
  swapFeesUSD : ℚ
  netProfitUSD : ℚ
  profitWithSafetyMargin : ℚ
deriving DecidableEq, Repr

/-- The `price0` values of the three fetched triangle prices for one DEX
(`AB`, `BC`, `AC`); `none` models a price that failed to fetch. -/
structure TriPrices where
  AB : Option ℚ
  BC : Option ℚ
  AC : Option ℚ
deriving DecidableEq, Repr

/-- Embedding of `ComprehensiveArbitrageBot.calculateGasCost`
(src/unnamed/part_000, lines 802-815). -/
def calculateGasCost (cfg : BotConfig) (gasPrice : ℚ) : ℚ :=
  cfg.gasEstimate * gasPrice / 10 ^ 18 * cfg.ethPriceUSD

/-- Embedding of `ComprehensiveArbitrageBot.calculateTriangularSwapFees`
(src/unnamed/part_000, lines 789-797): 0.3% of each leg amount. -/
def calculateTriangularSwapFees (amountA amountB amountC : ℚ) : ℚ :=
  let feeRate : ℚ := 3 / 1000
  amountA * feeRate + amountB * feeRate + amountC * feeRate

/-- Embedding of `ComprehensiveArbitrageBot.calculateTriangularArbitrage`
(src/unnamed/part_000, lines 714-784): missing prices yield `null`;
otherwise a $1000 notional is walked A→B→C→A through the quoted prices
(divisions exact for the nonzero prices used here), and the opportunity
is returned only when `netProfit * (1 - safetyMargin) >= minProfitUSD`. -/
def calculateTriangularArbitrage (cfg : BotConfig) (prices1 prices2 : TriPrices)
    (gasPrice : ℚ) : Option TriOpportunity :=
  match prices1.AB, prices1.BC, prices2.AC with
  | some priceAB, some priceBC, some priceAC =>
    let tradeAmount : ℚ := 1000
    let amountB := tradeAmount / priceAB
    let amountC := amountB / priceBC
    let finalAmountA := amountC * priceAC
    let grossProfit := finalAmountA - tradeAmount
    let gasCostUSD := calculateGasCost cfg gasPrice
    let swapFees := calculateTriangularSwapFees tradeAmount amountB amountC
    let totalCosts := gasCostUSD + swapFees
    let netProfit := grossProfit - totalCosts
    let profitWithSafetyMargin := netProfit * (1 - cfg.safetyMargin)
    if profitWithSafetyMargin < cfg.minProfitUSD then none
    else
      some
        { isTriangular := true
          tradeAmount := tradeAmount
          grossProfitUSD := grossProfit
          gasCostUSD := gasCostUSD
          swapFeesUSD := swapFees
          netProfitUSD := netProfit
          profitWithSafetyMargin := profitWithSafetyMargin }
  | _, _, _ => none

/-- The hard-coded test triangular opportunity of
`generateTestOpportunities` (src/unnamed/part_000, lines 901-924):
grossProfitUSD 12.50, gasCostUSD 60, swapFeesUSD 9,
netProfitUSD -56.50, profitWithSafetyMargin -56.50. -/
def testTriangularOpportunity : TriOpportunity :=
  { isTriangular := true
    tradeAmount := 1000
    grossProfitUSD := 25 / 2
    gasCostUSD := 60
    swapFeesUSD := 9
    netProfitUSD := -113 / 2
    profitWithSafetyMargin := -113 / 2 }

/-- The test direct opportunities of `generateTestOpportunities`
(src/unnamed/part_000, lines 864-898), parameterized by the loop index. -/
def testDirectOpportunity (index : ℕ) : TriOpportunity :=
  let basePrice : ℚ := 2000 + index * 100
  let priceDiff : ℚ := 5 / 1000 + index * (1 / 1000)
  let buyPrice := basePrice
  let sellPrice := basePrice * (1 + priceDiff)
  let tradeAmount : ℚ := 1000
  let grossProfit := (sellPrice - buyPrice) * tradeAmount / buyPrice
  let gasCost : ℚ := 60
  let swapFees := tradeAmount * (3 / 1000) * 2
  let netProfit := grossProfit - gasCost - swapFees
  { isTriangular := false
    tradeAmount := tradeAmount
    grossProfitUSD := grossProfit
    gasCostUSD := gasCost
    swapFeesUSD := swapFees
    netProfitUSD := netProfit
    profitWithSafetyMargin := netProfit * (9 / 10) }

/-- Embedding of `ComprehensiveArbitrageBot.generateTestOpportunities`
(src/unnamed/part_000, lines 854-929): three direct test opportunities
followed by the hard-coded triangular one. -/
def generateTestOpportunities : List TriOpportunity :=
  [testDirectOpportunity 0, testDirectOpportunity 1, testDirectOpportunity 2,
    testTriangularOpportunity]

/-- The set of opportunities `scanTriangularArbitrage`
(src/unnamed/part_000, lines 548-610) stores via
`databaseService.storeOpportunity` in one scan: every real opportunity
returned by detection, plus — when real fetching is disabled or nothing
real was found, `testMode` is on and the scan counter is a multiple of
15 — the triangular entries of `generateTestOpportunities`. -/
def scanTriangularStores (cfg : BotConfig) (realOpps : List TriOpportunity)
    (scansCompleted : ℕ) : List TriOpportunity :=
  realOpps ++
    (if (¬cfg.enableRealPriceFetching ∨ realOpps.length = 0) ∧ cfg.testMode = true ∧
        scansCompleted % 15 = 0 then
      generateTestOpportunities.filter (fun o => o.isTriangular)
    else [])

end ComprehensiveArbitrageBot

/-- On the real detection path an opportunity is only returned when its
safety-margin-adjusted net profit clears `minProfitUSD`. -/
theorem calculateTriangularArbitrage_min_profit
    (cfg : ComprehensiveArbitrageBot.BotConfig)
    (prices1 prices2 : ComprehensiveArbitrageBot.TriPrices) (gasPrice : ℚ)
    (opp : ComprehensiveArbitrageBot.TriOpportunity)
    (h : ComprehensiveArbitrageBot.calculateTriangularArbitrage cfg prices1 prices2
      gasPrice = some opp) :
    cfg.minProfitUSD ≤ opp.profitWithSafetyMargin ∧
    opp.profitWithSafetyMargin = opp.netProfitUSD * (1 - cfg.safetyMargin) := by
  obtain ⟨AB1, BC1, AC1⟩ := prices1
  obtain ⟨AB2, BC2, AC2⟩ := prices2
  unfold ComprehensiveArbitrageBot.calculateTriangularArbitrage at h
  cases AB1 with
  | none => cases h
  | some priceAB =>
    cases BC1 with
    | none => cases h
    | some priceBC =>
      cases AC2 with
      | none => cases h
      | some priceAC =>
        dsimp only at h
        split_ifs at h with h1
        all_goals cases h
        exact ⟨not_lt.mp h1, rfl⟩

/-- Claim C6 fails on the code: with the default configuration
(`testMode = true`), on any scan where real detection found nothing and
the scan counter is a multiple of 15, `scanTriangularArbitrage` stores
the hard-coded test triangular opportunity whose `netProfitUSD` is
-56.50 — a triangular opportunity with negative net profit is inserted
into the opportunity store. -/
theorem C6_negative_triangular_stored :
    ComprehensiveArbitrageBot.testTriangularOpportunity ∈
      ComprehensiveArbitrageBot.scanTriangularStores
        ComprehensiveArbitrageBot.defaultBotConfig [] 15 ∧
    ComprehensiveArbitrageBot.testTriangularOpportunity.netProfitUSD < 0 ∧
    ComprehensiveArbitrageBot.testTriangularOpportunity.isTriangular = true := by
  refine ⟨?_, by norm_num [ComprehensiveArbitrageBot.testTriangularOpportunity], rfl⟩
  simp [ComprehensiveArbitrageBot.scanTriangularStores,
    ComprehensiveArbitrageBot.generateTestOpportunities,
    ComprehensiveArbitrageBot.defaultBotConfig,
    ComprehensiveArbitrageBot.testDirectOpportunity,
    ComprehensiveArbitrageBot.testTriangularOpportunity]
